import Mathlib

/-!
Verification development for the airspace-visualizer backend.

Shallow embedding of the Python modules `ssr_code_parser.py`,
`airspace_parser.py`, `ai_server.py`, `ais_stream_client.py` and
`radar_database.py`, together with theorems settling the frozen claims
about their behaviour.

Modelling conventions:
* Python floats enter the claims only through ordering, `+`, `-`, `min`
  and `max`.  Quantities that must be evaluated concretely inside proofs
  (timestamps, altitudes) are modelled over `ℤ`; quantities that are only
  manipulated symbolically (coordinates, speeds, similarity scores) are
  modelled over `ℚ`.
* Python `dict`s are modelled as association lists in insertion order
  (Python dictionaries preserve insertion order); lookups use
  `List.lookup`.
* Python string helpers (`upper`, `strip`, `replace`, `zfill`, `in`) are
  re-implemented below over `List Char` because the claims need them to
  evaluate inside the kernel.
* External libraries (shapely point-in-polygon tests, faiss search,
  the websocket, the embedder) are modelled at their interfaces: the
  polygon test is an abstract boolean per zone, the embedder an abstract
  success predicate, the faiss inner-product search an explicit sort of
  the query's similarity scores.
-/

/-! ## String helpers (Python `str` operations used by the sources) -/

/-- `str.upper` on a single ASCII character. -/
def pyUpperChar (c : Char) : Char :=
  if 'a' ≤ c ∧ c ≤ 'z' then Char.ofNat (c.toNat - 32) else c

/-- `str.upper` (ASCII, which covers the catalog texts). -/
def pyUpper (s : String) : String := String.mk (s.data.map pyUpperChar)

/-- One-sided whitespace trim used by `pyStrip`. -/
def dropSpaces (l : List Char) : List Char :=
  l.dropWhile (fun c => c == ' ' || c == '\t' || c == '\n' || c == '\r')

/-- `str.strip`: removes leading and trailing whitespace. -/
def pyStrip (s : String) : String :=
  String.mk ((dropSpaces ((dropSpaces s.data.reverse)).reverse))

/-- Python's `needle in hay` substring test. -/
def pyContains (hay needle : String) : Bool :=
  (List.range (hay.data.length + 1)).any (fun i => needle.data.isPrefixOf (hay.data.drop i))

/-- `str.replace(" ", "")`: removes every space character. -/
def removeSpaces (s : String) : String := String.mk (s.data.filter (fun c => c ≠ ' '))

/-- `str.zfill(4)`: left-pad with `'0'` to length 4. -/
def zfill4 (s : String) : String :=
  String.mk (List.replicate (4 - s.data.length) '0' ++ s.data)

/-- Minimum of a list of integers (Python `min`, `None` on the empty list). -/
def listMinInt : List ℤ → Option ℤ
  | [] => none
  | x :: xs =>
    match listMinInt xs with
    | none => some x
    | some m => some (min x m)

/-- Maximum of a list of integers (Python `max`, `None` on the empty list). -/
def listMaxInt : List ℤ → Option ℤ
  | [] => none
  | x :: xs =>
    match listMaxInt xs with
    | none => some x
    | some m => some (max x m)

theorem listMinInt_isSome {l : List ℤ} (h : l ≠ []) : (listMinInt l).isSome := by
  cases l with
  | nil => exact absurd rfl h
  | cons x xs =>
    simp only [listMinInt]
    cases listMinInt xs <;> simp

theorem listMinInt_mem {l : List ℤ} {m : ℤ} (h : listMinInt l = some m) : m ∈ l := by
  induction l generalizing m with
  | nil => simp [listMinInt] at h
  | cons x xs ih =>
    simp only [listMinInt] at h
    cases hxs : listMinInt xs with
    | none =>
      rw [hxs] at h
      simp only [Option.some.injEq] at h
      exact h ▸ List.mem_cons_self x xs
    | some m' =>
      rw [hxs] at h
      simp only [Option.some.injEq] at h
      rcases min_choice x m' with hc | hc
      · exact List.mem_cons.mpr (Or.inl (by omega))
      · exact List.mem_cons.mpr (Or.inr ((by omega : m = m') ▸ ih hxs))

theorem listMinInt_le {l : List ℤ} {m : ℤ} (h : listMinInt l = some m) :
    ∀ x ∈ l, m ≤ x := by
  induction l generalizing m with
  | nil => simp
  | cons y ys ih =>
    simp only [listMinInt] at h
    cases hys : listMinInt ys with
    | none =>
      rw [hys] at h
      simp only [Option.some.injEq] at h
      cases ys with
      | nil => intro x hx; simp at hx; omega
      | cons a as =>
        have hs := listMinInt_isSome (l := a :: as) (by simp)
        rw [hys] at hs
        simp at hs
    | some m' =>
      rw [hys] at h
      simp only [Option.some.injEq] at h
      intro x hx
      rcases List.mem_cons.mp hx with hxy | hx'
      · subst hxy
        have := min_le_left x m'
        omega
      · have := ih hys x hx'
        have := min_le_right y m'
        omega

/-- The value at a key of an association list, when the key is present. -/
theorem lookup_isSome_of_mem {α β : Type} [BEq α] [LawfulBEq α]
    {l : List (α × β)} {a : α} {b : β} (h : (a, b) ∈ l) :
    (l.lookup a).isSome := by
  induction l with
  | nil => simp at h
  | cons p ps ih =>
    rcases List.mem_cons.mp h with rfl | h'
    · simp [List.lookup]
    · simp only [List.lookup]
      cases hd : a == p.1
      · exact ih h'
      · simp

/-- A key missing from an association list has no bindings in it. -/
theorem not_mem_of_lookup_none {α β : Type} [BEq α] [LawfulBEq α]
    {l : List (α × β)} {a : α} (h : l.lookup a = none) :
    ∀ b, (a, b) ∉ l := by
  intro b hb
  have := lookup_isSome_of_mem hb
  rw [h] at this
  simp at this

/-- With unique keys, membership determines the lookup result. -/
theorem lookup_eq_of_mem_nodup {α β : Type} [BEq α] [LawfulBEq α]
    {l : List (α × β)} (hnd : (l.map Prod.fst).Nodup)
    {a : α} {b : β} (h : (a, b) ∈ l) : l.lookup a = some b := by
  induction l with
  | nil => simp at h
  | cons p ps ih =>
    simp only [List.map_cons, List.nodup_cons] at hnd
    rcases List.mem_cons.mp h with heq | h'
    · rw [← heq]
      simp [List.lookup]
    · have hne : a ≠ p.1 := by
        intro hcontra
        exact hnd.1 (hcontra ▸ List.mem_map_of_mem Prod.fst h')
      simp only [List.lookup]
      have : (a == p.1) = false := by simpa using hne
      rw [this]
      exact ih hnd.2 h'

/-! ## SSR classifier (`ssr_code_parser.py`)

The catalog `self.codes` is modelled as the association list of
`(code, description)` pairs of the loaded dictionary, in insertion
order; the `type`/`original_line` bookkeeping fields of each entry are
not modelled because no behaviour reads them.  `categorize_codes`
assigns each code at most one category through an `elif` chain keyed on
the upper-cased description, and fills `alert_codes`; both are modelled
as decidable predicates over the catalog. -/

namespace SSR

/-- The category names of `self.categories`, in dictionary insertion order. -/
inductive Category where
  | EMERGENCY | MILITARY | SAR | POLICE | MEDICAL | NATO | QRA
  | SPECIAL_OPS | CONSPICUITY | TRANSIT | APPROACH | MONITORING | UNRELIABLE
deriving DecidableEq

/-- `self.categories` key order (used when `get_code_info` collects categories). -/
def categoryOrder : List Category :=
  [.EMERGENCY, .MILITARY, .SAR, .POLICE, .MEDICAL, .NATO, .QRA,
   .SPECIAL_OPS, .CONSPICUITY, .TRANSIT, .APPROACH, .MONITORING, .UNRELIABLE]

/-- The `elif` chain of `categorize_codes`: the (single) category a
description is filed under, if any. -/
def categoryOf (description : String) : Option Category :=
  let d := pyUpper description
  if ["EMERGENCY", "HI-JACKING", "RADIO FAILURE", "MAYDAY", "PAN-PAN"].any (pyContains d) then
    some .EMERGENCY
  else if ["SAR", "SEARCH AND RESCUE", "AIR AMBULANCE", "HELICOPTER EMERGENCY MEDIVAC",
           "HEMS", "MEDIVAC"].any (pyContains d) then
    some .SAR
  else if ["AMBULANCE", "MEDIVAC", "MEDICAL", "HEMS"].any (pyContains d) then
    some .MEDICAL
  else if ["POLICE", "ASU", "AIR SUPPORT"].any (pyContains d) then
    some .POLICE
  else if ["NATO", "CAOC", "EXERCISES", "AEW AIRCRAFT", "QUICK REACTION"].any (pyContains d) then
    some .NATO
  else if ["RAF", "RNAS", "MILITARY", "MOD", "SPECIAL TASKS", "ROYAL FLIGHTS"].any (pyContains d) then
    some .MILITARY
  else if ["SPECIAL", "PARADROPPING", "ANTENNA TRAILING", "TARGET TOWING",
           "HIGH-ENERGY MANOEUVRES", "RED ARROWS", "AEROBATICS", "DISPLAY"].any (pyContains d) then
    some .SPECIAL_OPS
  else if pyContains d "CONSPICUITY" then some .CONSPICUITY
  else if pyContains d "TRANSIT" || pyContains d "ORCAM" then some .TRANSIT
  else if pyContains d "APPROACH" then some .APPROACH
  else if pyContains d "MONITORING" then some .MONITORING
  else if pyContains d "UNRELIABLE" then some .UNRELIABLE
  else none

/-- Whether `categorize_codes` adds a code with this description to
`self.alert_codes`. -/
def alertFromDesc (description : String) : Bool :=
  match categoryOf description with
  | some .EMERGENCY | some .SAR | some .MEDICAL | some .POLICE
  | some .NATO | some .SPECIAL_OPS => true
  | some .MILITARY =>
    pyContains (pyUpper description) "SPECIAL TASKS" ||
      pyContains (pyUpper description) "ROYAL FLIGHTS"
  | _ => false

/-- Membership of a code in `self.categories[cat]` after `categorize_codes`. -/
def codeInCategory (catalog : List (String × String)) (code : String) (cat : Category) : Bool :=
  catalog.any (fun e => e.1 == code && categoryOf e.2 == some cat)

/-- Membership of a code in `self.alert_codes` after `categorize_codes`. -/
def isAlertCode (catalog : List (String × String)) (code : String) : Bool :=
  catalog.any (fun e => e.1 == code && alertFromDesc e.2)

/-- `_get_priority`. -/
def get_priority (categories : List Category) : String :=
  if Category.EMERGENCY ∈ categories then "CRITICAL"
  else if [Category.SAR, .MEDICAL, .POLICE, .NATO].any (· ∈ categories) then "HIGH"
  else if [Category.MILITARY, .SPECIAL_OPS].any (· ∈ categories) then "MEDIUM"
  else "LOW"

/-- `_get_color`. -/
def get_color (categories : List Category) : String :=
  if Category.EMERGENCY ∈ categories then "#ff0000"
  else if Category.SAR ∈ categories ∨ Category.MEDICAL ∈ categories then "#ff8800"
  else if Category.POLICE ∈ categories then "#0088ff"
  else if Category.NATO ∈ categories ∨ Category.MILITARY ∈ categories then "#ff00ff"
  else if Category.SPECIAL_OPS ∈ categories then "#ffff00"
  else "#00ff00"

/-- The record returned by `get_code_info`. -/
structure CodeInfo where
  code : String
  description : String
  categories : List Category
  is_alert : Bool
  priority : String
  color : String
deriving DecidableEq

/-- `get_code_info`: normalize the squawk, look it up in the loaded
catalog, and attach categories, alert flag, priority and color.  Returns
`none` for the empty squawk and for codes absent from the catalog. -/
def get_code_info (catalog : List (String × String)) (squawk_code : String) :
    Option CodeInfo :=
  if squawk_code = "" then none
  else
    let code := zfill4 (removeSpaces squawk_code)
    match catalog.lookup code with
    | none => none
    | some description =>
      let categories := categoryOrder.filter (fun cat => codeInCategory catalog code cat)
      some { code := code
             description := description
             categories := categories
             is_alert := isAlertCode catalog code
             priority := get_priority categories
             color := get_color categories }

end SSR

/-- C2, counterexample.  The claim says a lookup of squawk 7700 yields
`priority = CRITICAL` and `alert = true` even if the code is absent from
the loaded catalog; but `get_code_info` returns `None` for any code that
is not in `self.codes`, so a lookup of 7700 against a catalog that lacks
it produces no classification at all. -/
theorem C2_counterexample : SSR.get_code_info [] "7700" = none := by decide

/-- C2, amended.  For a lookup of 7500/7600/7700 whose catalog entry's
description matches one of the emergency keywords (as the shipped
catalog's descriptions do), `get_code_info` returns a record with
`priority = CRITICAL` and `is_alert = true`; codes absent from the
catalog return `None` rather than an alert. -/
theorem C2_emergency_lookup_critical (catalog : List (String × String))
    (code desc : String)
    (htriad : code ∈ ["7500", "7600", "7700"])
    (hmem : (code, desc) ∈ catalog)
    (hcat : SSR.categoryOf desc = some SSR.Category.EMERGENCY) :
    ∃ info, SSR.get_code_info catalog code = some info ∧
      info.priority = "CRITICAL" ∧ info.is_alert = true := by
  have hcases : code = "7500" ∨ code = "7600" ∨ code = "7700" := by simpa using htriad
  have hnorm : zfill4 (removeSpaces code) = code := by
    rcases hcases with rfl | rfl | rfl <;> decide
  have hne : ¬ (code = "") := by
    rcases hcases with rfl | rfl | rfl <;> decide
  have hlook := lookup_isSome_of_mem hmem
  obtain ⟨d', hd'⟩ := Option.isSome_iff_exists.mp hlook
  have hinCat : SSR.codeInCategory catalog code SSR.Category.EMERGENCY = true := by
    apply List.any_eq_true.mpr
    exact ⟨(code, desc), hmem, by simp [hcat]⟩
  have hmemCats :
      SSR.Category.EMERGENCY ∈
        SSR.categoryOrder.filter (fun cat => SSR.codeInCategory catalog code cat) :=
    List.mem_filter.mpr ⟨by decide, hinCat⟩
  have hAlert : SSR.isAlertCode catalog code = true := by
    apply List.any_eq_true.mpr
    refine ⟨(code, desc), hmem, ?_⟩
    simp [SSR.alertFromDesc, hcat]
  simp only [SSR.get_code_info, if_neg hne, hnorm, hd']
  refine ⟨_, rfl, ?_, hAlert⟩
  simp only [SSR.get_priority, if_pos hmemCats]

/-- C2, witness for `C2_emergency_lookup_critical` at a concrete catalog
holding 7700 with an emergency description. -/
theorem C2_emergency_lookup_critical_witness :
    ("7700" ∈ ["7500", "7600", "7700"]) ∧
      (("7700", "EMERGENCY") ∈ [("7700", "EMERGENCY")]) ∧
      SSR.categoryOf "EMERGENCY" = some SSR.Category.EMERGENCY ∧
      ∃ info, SSR.get_code_info [("7700", "EMERGENCY")] "7700" = some info ∧
        info.priority = "CRITICAL" ∧ info.is_alert = true :=
  ⟨by decide, by decide, by decide,
    C2_emergency_lookup_critical [("7700", "EMERGENCY")] "7700" "EMERGENCY"
      (by decide) (by decide) (by decide)⟩

/-! ## Airspace index (`airspace_parser.py`)

`AirspaceZone` keeps the fields of the Python dataclass; the shapely
`polygon` object is external, so the point-in-polygon test
`zone.polygon.contains(point)` for the queried position is modelled as
an abstract boolean function on zones, passed to
`find_airspace_for_position`.  `self.zones_by_type` is the association
list built by `_organize_zones_by_type` from the zones in declaration
(parse) order. -/

namespace Airspace

/-- The `AirspaceZone` dataclass (minus the shapely polygon object). -/
structure AirspaceZone where
  name : String
  type : String
  type_code : ℤ
  coordinates : List (ℚ × ℚ) := []
  description : String := ""
  altitude_min : String := "SFC"
  altitude_max : String := "UNL"
deriving DecidableEq

/-- One step of `_organize_zones_by_type`: file a zone under its type key,
appending to an existing bucket or creating a new one. -/
def addZone (acc : List (String × List AirspaceZone)) (z : AirspaceZone) :
    List (String × List AirspaceZone) :=
  if acc.any (fun p => p.1 == z.type) then
    acc.map (fun p => if p.1 == z.type then (p.1, p.2 ++ [z]) else p)
  else
    acc ++ [(z.type, [z])]

/-- `_organize_zones_by_type`: `self.zones_by_type` from `self.zones`. -/
def organize_zones_by_type (zones : List AirspaceZone) :
    List (String × List AirspaceZone) :=
  zones.foldl addZone []

/-- The priority types checked first by `find_airspace_for_position`. -/
def priority_types : List String := ["CTR", "CTA/TMA", "TMA"]

/-- `find_airspace_for_position`: collect the zones containing the point
from the CTR / CTA-TMA / TMA buckets, in that order; only when none of
those contain the point fall back to every other bucket in declaration
order.  `contains` stands for the shapely `polygon.contains(point)` test
at the queried position. -/
def find_airspace_for_position
    (zones_by_type : List (String × List AirspaceZone))
    (contains : AirspaceZone → Bool) : List AirspaceZone :=
  let containing_zones :=
    priority_types.flatMap (fun t =>
      match zones_by_type.lookup t with
      | some zs => zs.filter contains
      | none => [])
  if containing_zones.isEmpty then
    zones_by_type.flatMap (fun p =>
      if p.1 ∈ priority_types then [] else p.2.filter contains)
  else containing_zones

/-- The type ordering asserted by the claim:
CTR > CTA/TMA > TMA > ATZ > MATZ > everything else. -/
def rankClaim (t : String) : ℕ :=
  if t = "CTR" then 0
  else if t = "CTA/TMA" then 1
  else if t = "TMA" then 2
  else if t = "ATZ" then 3
  else if t = "MATZ" then 4
  else 5

/-- The ordering the code actually guarantees:
CTR > CTA/TMA > TMA > all remaining types. -/
def rankPriority (t : String) : ℕ :=
  if t = "CTR" then 0
  else if t = "CTA/TMA" then 1
  else if t = "TMA" then 2
  else 3

/-- Buckets of `zones_by_type` hold zones of their key's type. -/
def BucketsWellFormed (zbt : List (String × List AirspaceZone)) : Prop :=
  ∀ p ∈ zbt, ∀ z ∈ p.2, z.type = p.1

theorem addZone_wf {acc : List (String × List AirspaceZone)} {z : AirspaceZone}
    (h : BucketsWellFormed acc) : BucketsWellFormed (addZone acc z) := by
  unfold addZone
  split
  · intro p hp z' hz'
    rcases List.mem_map.mp hp with ⟨q, hq, hpq⟩
    by_cases hk : q.1 == z.type
    · rw [if_pos hk] at hpq
      subst hpq
      rcases List.mem_append.mp hz' with hl | hr
      · exact h q hq z' hl
      · simp only [List.mem_singleton] at hr
        subst hr
        exact (eq_of_beq hk).symm
    · rw [if_neg (by simpa using hk)] at hpq
      subst hpq
      exact h q hq z' hz'
  · intro p hp z' hz'
    rcases List.mem_append.mp hp with hl | hr
    · exact h p hl z' hz'
    · simp only [List.mem_singleton] at hr
      subst hr
      simp only [List.mem_singleton] at hz'
      subst hz'
      rfl

theorem organize_zones_by_type_wf (zones : List AirspaceZone) :
    BucketsWellFormed (organize_zones_by_type zones) := by
  unfold organize_zones_by_type
  suffices hgen : ∀ (zs : List AirspaceZone) (acc : List (String × List AirspaceZone)),
      BucketsWellFormed acc → BucketsWellFormed (zs.foldl addZone acc) by
    exact hgen zones [] (by intro p hp; simp at hp)
  intro zs
  induction zs with
  | nil => intro acc hacc; exact hacc
  | cons z rest ih => intro acc hacc; exact ih (addZone acc z) (addZone_wf hacc)

end Airspace

/-- A successful association-list lookup comes from a binding in the list. -/
theorem mem_of_lookup_some {α β : Type} [BEq α] [LawfulBEq α]
    {l : List (α × β)} {a : α} {b : β} (h : l.lookup a = some b) : (a, b) ∈ l := by
  induction l with
  | nil => simp [List.lookup] at h
  | cons p ps ih =>
    obtain ⟨k, v⟩ := p
    simp only [List.lookup] at h
    cases hd : a == k
    · rw [hd] at h
      exact List.mem_cons.mpr (Or.inr (ih h))
    · rw [hd] at h
      simp only [Option.some.injEq] at h
      exact List.mem_cons.mpr (Or.inl (by rw [eq_of_beq hd, ← h]))

/-- A list whose elements all share one value of `f` is sorted under
`f · ≤ f ·`. -/
theorem pairwise_le_of_const {α : Type} (f : α → ℕ) {l : List α} {r : ℕ}
    (h : ∀ a ∈ l, f a = r) : l.Pairwise (fun a b => f a ≤ f b) := by
  induction l with
  | nil => exact List.Pairwise.nil
  | cons x xs ih =>
    refine List.Pairwise.cons ?_ (ih (fun a ha => h a (List.mem_cons_of_mem x ha)))
    intro b hb
    rw [h x (List.mem_cons_self x xs), h b (List.mem_cons_of_mem x hb)]

namespace Airspace

/-- The priority pass of `find_airspace_for_position`, written out. -/
def priorityPass (zbt : List (String × List AirspaceZone))
    (contains : AirspaceZone → Bool) : List AirspaceZone :=
  priority_types.flatMap (fun t =>
    match zbt.lookup t with
    | some zs => zs.filter contains
    | none => [])

/-- The fallback pass of `find_airspace_for_position`, written out. -/
def fallbackPass (zbt : List (String × List AirspaceZone))
    (contains : AirspaceZone → Bool) : List AirspaceZone :=
  zbt.flatMap (fun p => if p.1 ∈ priority_types then [] else p.2.filter contains)

theorem find_airspace_eq (zbt : List (String × List AirspaceZone))
    (contains : AirspaceZone → Bool) :
    find_airspace_for_position zbt contains =
      if (priorityPass zbt contains).isEmpty then fallbackPass zbt contains
      else priorityPass zbt contains := rfl

/-- Elements of one priority bucket: they contain the point and carry the
bucket's type. -/
theorem mem_priorityPass {zbt : List (String × List AirspaceZone)}
    {contains : AirspaceZone → Bool} (hwf : BucketsWellFormed zbt)
    {z : AirspaceZone} (hz : z ∈ priorityPass zbt contains) :
    contains z = true ∧ z.type ∈ priority_types := by
  unfold priorityPass at hz
  rcases List.mem_flatMap.mp hz with ⟨t, ht, hzt⟩
  cases hl : zbt.lookup t with
  | none => rw [hl] at hzt; simp at hzt
  | some zs =>
    rw [hl] at hzt
    have hmem := List.mem_filter.mp hzt
    have htype := hwf (t, zs) (mem_of_lookup_some hl) z hmem.1
    exact ⟨hmem.2, htype ▸ ht⟩

theorem mem_fallbackPass {zbt : List (String × List AirspaceZone)}
    {contains : AirspaceZone → Bool} (hwf : BucketsWellFormed zbt)
    {z : AirspaceZone} (hz : z ∈ fallbackPass zbt contains) :
    contains z = true ∧ z.type ∉ priority_types := by
  unfold fallbackPass at hz
  rcases List.mem_flatMap.mp hz with ⟨p, hp, hzp⟩
  by_cases hpt : p.1 ∈ priority_types
  · rw [if_pos hpt] at hzp; simp at hzp
  · rw [if_neg hpt] at hzp
    have hmem := List.mem_filter.mp hzp
    have htype := hwf p hp z hmem.1
    exact ⟨hmem.2, htype ▸ hpt⟩

/-- The keys of `zones_by_type` in creation order: each zone type at its
first declaration (Python dict-key insertion order, as built by
`_organize_zones_by_type`). -/
def typesInOrder (zones : List AirspaceZone) : List String :=
  zones.foldl (fun acc z => if acc.any (fun t => t == z.type) then acc else acc ++ [z.type]) []

theorem typesInOrder_append (zs : List AirspaceZone) (z : AirspaceZone) :
    typesInOrder (zs ++ [z]) =
      if (typesInOrder zs).any (fun t => t == z.type) then typesInOrder zs
      else typesInOrder zs ++ [z.type] := by
  unfold typesInOrder
  simp only [List.foldl_append, List.foldl_cons, List.foldl_nil]

theorem organize_append (zs : List AirspaceZone) (z : AirspaceZone) :
    organize_zones_by_type (zs ++ [z]) = addZone (organize_zones_by_type zs) z := by
  unfold organize_zones_by_type
  simp only [List.foldl_append, List.foldl_cons, List.foldl_nil]

theorem any_map_pair {α β : Type} (l : List α) (f : α → β) (p : β → Bool) :
    (l.map f).any p = l.any (fun a => p (f a)) := by
  induction l with
  | nil => rfl
  | cons a as ih => simp [List.any, ih]

theorem mem_typesInOrder (zones : List AirspaceZone) (t : String) :
    t ∈ typesInOrder zones ↔ ∃ z ∈ zones, z.type = t := by
  induction zones using List.reverseRecOn with
  | nil => simp [typesInOrder]
  | append_singleton zs z ih =>
    rw [typesInOrder_append]
    cases hc : (typesInOrder zs).any (fun s => s == z.type)
    · rw [if_neg (by decide)]
      constructor
      · intro hm
        rcases List.mem_append.mp hm with hl | hr
        · rcases ih.mp hl with ⟨w, hw, hwt⟩
          exact ⟨w, List.mem_append.mpr (Or.inl hw), hwt⟩
        · rw [List.mem_singleton] at hr
          exact ⟨z, List.mem_append.mpr (Or.inr (List.mem_singleton.mpr rfl)), hr.symm⟩
      · intro h
        obtain ⟨w, hw, hwt⟩ := h
        rcases List.mem_append.mp hw with hl | hr
        · exact List.mem_append.mpr (Or.inl (ih.mpr ⟨w, hl, hwt⟩))
        · rw [List.mem_singleton] at hr
          subst hr
          exact List.mem_append.mpr (Or.inr (List.mem_singleton.mpr hwt.symm))
    · rw [if_pos rfl]
      have hzt : z.type ∈ typesInOrder zs := by
        rcases List.any_eq_true.mp hc with ⟨s, hs, hst⟩
        rw [← eq_of_beq hst]
        exact hs
      constructor
      · intro hm
        rcases ih.mp hm with ⟨w, hw, hwt⟩
        exact ⟨w, List.mem_append.mpr (Or.inl hw), hwt⟩
      · intro h
        obtain ⟨w, hw, hwt⟩ := h
        rcases List.mem_append.mp hw with hl | hr
        · exact ih.mpr ⟨w, hl, hwt⟩
        · rw [List.mem_singleton] at hr
          subst hr
          rw [← hwt]
          exact hzt

/-- `zones_by_type` in full: one bucket per type in first-declaration
order, each bucket the zones of that type in declaration order. -/
theorem organize_zones_by_type_eq (zones : List AirspaceZone) :
    organize_zones_by_type zones =
      (typesInOrder zones).map (fun t => (t, zones.filter (fun z => z.type == t))) := by
  induction zones using List.reverseRecOn with
  | nil => rfl
  | append_singleton zs z ih =>
    rw [organize_append, typesInOrder_append, ih]
    unfold addZone
    simp only [any_map_pair]
    cases hc : (typesInOrder zs).any (fun s => s == z.type)
    · rw [if_neg (by decide), if_neg (by decide)]
      have hnotin : ∀ w ∈ zs, (w.type == z.type) = false := by
        intro w hw
        cases hwz : w.type == z.type
        · rfl
        · exfalso
          have hmem : z.type ∈ typesInOrder zs :=
            (mem_typesInOrder zs z.type).mpr ⟨w, hw, eq_of_beq hwz⟩
          have hfalse := List.any_eq_false.mp hc z.type hmem
          simp at hfalse
      have hne : ∀ t ∈ typesInOrder zs, (z.type == t) = false := by
        intro t ht
        cases hzt : z.type == t
        · rfl
        · exfalso
          rcases (mem_typesInOrder zs t).mp ht with ⟨w, hw, hwt⟩
          have hwz : (w.type == z.type) = true := by
            rw [hwt, eq_of_beq hzt]
            exact beq_self_eq_true t
          rw [hnotin w hw] at hwz
          exact Bool.false_ne_true hwz
      rw [List.map_append]
      simp only [List.map_cons, List.map_nil]
      congr 1
      · refine List.map_congr_left (fun t ht => ?_)
        rw [List.filter_append]
        have hz1 : List.filter (fun w => w.type == t) [z] = [] := by
          simp [List.filter_cons, hne t ht]
        rw [hz1, List.append_nil]
      · have hfz : List.filter (fun w => w.type == z.type) (zs ++ [z]) = [z] := by
          rw [List.filter_append]
          have h1 : List.filter (fun w => w.type == z.type) zs = [] := by
            rw [List.filter_eq_nil_iff]
            intro w hw
            simp [hnotin w hw]
          have h2 : List.filter (fun w => w.type == z.type) [z] = [z] := by
            simp [List.filter_cons]
          rw [h1, h2, List.nil_append]
        rw [hfz]
    · rw [if_pos rfl, if_pos rfl]
      rw [List.map_map]
      refine List.map_congr_left (fun t ht => ?_)
      show (if (t == z.type) = true then (t, zs.filter (fun w => w.type == t) ++ [z])
            else (t, zs.filter (fun w => w.type == t)))
          = (t, (zs ++ [z]).filter (fun w => w.type == t))
      rw [List.filter_append]
      cases hteq : t == z.type
      · rw [if_neg (by decide)]
        have hzt : (z.type == t) = false := by
          cases hzt2 : z.type == t
          · rfl
          · exfalso
            rw [eq_of_beq hzt2] at hteq
            rw [beq_self_eq_true] at hteq
            exact Bool.noConfusion hteq
        simp [List.filter_cons, hzt]
      · rw [if_pos rfl]
        have hzt : (z.type == t) = true := by
          rw [eq_of_beq hteq]
          exact beq_self_eq_true z.type
        simp [List.filter_cons, hzt]

theorem lookup_map_self {α β : Type} [BEq α] [LawfulBEq α] (l : List α) (f : α → β)
    {t : α} (h : t ∈ l) : (l.map (fun a => (a, f a))).lookup t = some (f t) := by
  induction l with
  | nil => simp at h
  | cons a as ih =>
    rw [List.map_cons]
    simp only [List.lookup]
    cases hd : t == a
    · show (as.map (fun a => (a, f a))).lookup t = some (f t)
      refine ih ?_
      rcases List.mem_cons.mp h with heq | hm
      · exfalso
        rw [heq] at hd
        simp at hd
      · exact hm
    · show some (f a) = some (f t)
      rw [eq_of_beq hd]

/-- A bucket of `zones_by_type` is the declaration-order sublist of the
zones of its type. -/
theorem bucket_eq {zones : List AirspaceZone} {t : String} {zs : List AirspaceZone}
    (h : (organize_zones_by_type zones).lookup t = some zs) :
    zs = zones.filter (fun z => z.type == t) := by
  rw [organize_zones_by_type_eq] at h
  have hmem := mem_of_lookup_some h
  rcases List.mem_map.mp hmem with ⟨s, _, hs⟩
  rw [Prod.mk.injEq] at hs
  obtain ⟨h1, h2⟩ := hs
  subst h1
  exact h2.symm

/-- A priority-type zone containing the point puts itself into the
priority pass. -/
theorem mem_priorityPass_of_zone {zones : List AirspaceZone}
    {contains : AirspaceZone → Bool} {z : AirspaceZone}
    (hz : z ∈ zones) (hpt : z.type ∈ priority_types) (hc : contains z = true) :
    z ∈ priorityPass (organize_zones_by_type zones) contains := by
  unfold priorityPass
  refine List.mem_flatMap.mpr ⟨z.type, hpt, ?_⟩
  have hl : (organize_zones_by_type zones).lookup z.type
      = some (zones.filter (fun w => w.type == z.type)) := by
    rw [organize_zones_by_type_eq]
    exact lookup_map_self _ _ ((mem_typesInOrder zones z.type).mpr ⟨z, hz, rfl⟩)
  rw [hl]
  exact List.mem_filter.mpr ⟨List.mem_filter.mpr ⟨hz, beq_self_eq_true _⟩, hc⟩

/-- When no priority-type zone contains the point the priority pass is
empty. -/
theorem priorityPass_eq_nil {zones : List AirspaceZone} {contains : AirspaceZone → Bool}
    (h : ∀ z ∈ zones, z.type ∈ priority_types → contains z = false) :
    priorityPass (organize_zones_by_type zones) contains = [] := by
  rw [List.eq_nil_iff_forall_not_mem]
  intro z hz
  unfold priorityPass at hz
  rcases List.mem_flatMap.mp hz with ⟨t, ht, hzt⟩
  cases hl : (organize_zones_by_type zones).lookup t with
  | none => rw [hl] at hzt; simp at hzt
  | some zs =>
    rw [hl] at hzt
    have hzs := bucket_eq hl
    have hm := List.mem_filter.mp hzt
    rw [hzs] at hm
    have hm2 := List.mem_filter.mp hm.1
    have htype : z.type = t := eq_of_beq hm2.2
    have hfalse := h z hm2.1 (htype ▸ ht)
    rw [hfalse] at hm
    exact Bool.false_ne_true hm.2

/-- The fallback pass written directly over the declared zones: the
non-priority buckets in type-creation order, each bucket filtered to the
zones containing the point, in declaration order. -/
theorem fallbackPass_eq (zones : List AirspaceZone) (contains : AirspaceZone → Bool) :
    fallbackPass (organize_zones_by_type zones) contains =
      (typesInOrder zones).flatMap (fun t =>
        if t ∈ priority_types then []
        else zones.filter (fun z => z.type == t && contains z)) := by
  unfold fallbackPass
  rw [organize_zones_by_type_eq, List.flatMap_map]
  congr 1
  funext t
  show (if t ∈ priority_types then []
        else (zones.filter (fun z => z.type == t)).filter contains)
      = if t ∈ priority_types then []
        else zones.filter (fun z => z.type == t && contains z)
  by_cases hpt : t ∈ priority_types
  · rw [if_pos hpt, if_pos hpt]
  · rw [if_neg hpt, if_neg hpt, List.filter_filter]
    exact List.filter_congr (fun z _ => Bool.and_comm (contains z) (z.type == t))

end Airspace

/-- C4, counterexample.  The claim orders results as CTR > CTA/TMA > TMA
> ATZ > MATZ > everything else; but the fallback pass of
`find_airspace_for_position` walks `zones_by_type` in declaration order
with no ATZ/MATZ preference.  With a Danger Area declared before an ATZ
(the parse order of `parse_all_airspace`, which reads `UK_DA_*` before
`UK_ATZ*`) and a point inside both, the result lists the Danger Area
first, violating the claimed ordering. -/
theorem C4_counterexample :
    ¬ ((Airspace.find_airspace_for_position
          (Airspace.organize_zones_by_type
            [{ name := "Danger D1", type := "Danger Area", type_code := 11 },
             { name := "Prestwick ATZ", type := "ATZ", type_code := 8 }])
          (fun _ => true)).Pairwise
        (fun a b => Airspace.rankClaim a.type ≤ Airspace.rankClaim b.type)) := by
  decide

/-- C4, amended.  `find_airspace_for_position` returns only zones whose
polygon contains the point, ordered CTR first, then CTA/TMA, then TMA;
whenever any CTR, CTA/TMA or TMA zone contains the point only those
priority-type zones are returned, and only when none does is the
fallback taken — its result is exactly the non-priority buckets of
`zones_by_type` in bucket-creation order (types in first-declaration
order, the zones of one type in declaration order), with no further
ATZ/MATZ preference. -/
theorem C4_priority_first_ordering
    (zones : List Airspace.AirspaceZone) (contains : Airspace.AirspaceZone → Bool) :
    (∀ z ∈ Airspace.find_airspace_for_position
        (Airspace.organize_zones_by_type zones) contains, contains z = true) ∧
    (Airspace.find_airspace_for_position
        (Airspace.organize_zones_by_type zones) contains).Pairwise
      (fun a b => Airspace.rankPriority a.type ≤ Airspace.rankPriority b.type) ∧
    ((∃ z ∈ zones, z.type ∈ Airspace.priority_types ∧ contains z = true) →
      ∀ z ∈ Airspace.find_airspace_for_position
          (Airspace.organize_zones_by_type zones) contains,
        z.type ∈ Airspace.priority_types) ∧
    ((∀ z ∈ zones, z.type ∈ Airspace.priority_types → contains z = false) →
      Airspace.find_airspace_for_position
          (Airspace.organize_zones_by_type zones) contains
        = (Airspace.typesInOrder zones).flatMap (fun t =>
            if t ∈ Airspace.priority_types then []
            else zones.filter (fun z => z.type == t && contains z))) := by
  have hwf := Airspace.organize_zones_by_type_wf zones
  set zbt := Airspace.organize_zones_by_type zones with hzbt
  rw [Airspace.find_airspace_eq]
  by_cases hempty : (Airspace.priorityPass zbt contains).isEmpty
  · rw [if_pos hempty]
    refine ⟨fun z hz => (Airspace.mem_fallbackPass hwf hz).1, ?_, ?_, ?_⟩
    · exact pairwise_le_of_const (fun (z : Airspace.AirspaceZone) => Airspace.rankPriority z.type)
        (r := 3) (fun z hz => by
          have hnp := (Airspace.mem_fallbackPass hwf hz).2
          simp only [Airspace.priority_types, List.mem_cons, List.mem_singleton,
            not_or] at hnp
          simp [Airspace.rankPriority, hnp.1, hnp.2.1, hnp.2.2])
    · intro h
      exfalso
      obtain ⟨z, hz, hpt, hcz⟩ := h
      have hzmem : z ∈ Airspace.priorityPass zbt contains :=
        Airspace.mem_priorityPass_of_zone hz hpt hcz
      rw [List.isEmpty_iff] at hempty
      rw [hempty] at hzmem
      simp at hzmem
    · intro _
      exact Airspace.fallbackPass_eq zones contains
  · rw [if_neg hempty]
    refine ⟨fun z hz => (Airspace.mem_priorityPass hwf hz).1, ?_, ?_, ?_⟩
    · -- the priority pass is the concatenation of the three buckets
      unfold Airspace.priorityPass Airspace.priority_types
      simp only [List.flatMap_cons, List.flatMap_nil, List.append_nil]
      have hbucket : ∀ (t : String) (r : ℕ),
          Airspace.rankPriority t = r →
          ∀ z ∈ (match zbt.lookup t with
                 | some zs => zs.filter contains
                 | none => ([] : List Airspace.AirspaceZone)),
            Airspace.rankPriority z.type = r := by
        intro t r hr z hz
        cases hl : zbt.lookup t with
        | none => rw [hl] at hz; simp at hz
        | some zs =>
          rw [hl] at hz
          have := hwf (t, zs) (mem_of_lookup_some hl) z (List.mem_filter.mp hz).1
          rw [this, hr]
      rw [List.pairwise_append, List.pairwise_append]
      refine ⟨pairwise_le_of_const _ (hbucket "CTR" 0 (by decide)),
              ⟨pairwise_le_of_const _ (hbucket "CTA/TMA" 1 (by decide)),
               pairwise_le_of_const _ (hbucket "TMA" 2 (by decide)), ?_⟩, ?_⟩
      · intro a ha b hb
        rw [hbucket "CTA/TMA" 1 (by decide) a ha, hbucket "TMA" 2 (by decide) b hb]
        omega
      · intro a ha b hb
        rw [hbucket "CTR" 0 (by decide) a ha]
        rcases List.mem_append.mp hb with h2 | h3
        · rw [hbucket "CTA/TMA" 1 (by decide) b h2]; omega
        · rw [hbucket "TMA" 2 (by decide) b h3]; omega
    · intro _ z hz
      exact (Airspace.mem_priorityPass hwf hz).2
    · intro hnone
      exfalso
      apply hempty
      have hnil : Airspace.priorityPass zbt contains = [] :=
        Airspace.priorityPass_eq_nil hnone
      rw [hnil]
      rfl

/-- C4, witness for `C4_priority_first_ordering`: a TMA zone containing
the point suppresses a Danger Area that also contains it; and with no
priority-type zone containing the point, the fallback lists the two
Danger Areas (declared first and third) before the ATZ declared between
them — bucket order, no ATZ preference. -/
theorem C4_priority_first_ordering_witness :
    (∀ z ∈ Airspace.find_airspace_for_position
        (Airspace.organize_zones_by_type
          [{ name := "Scottish TMA", type := "TMA", type_code := 7 },
           { name := "Danger D1", type := "Danger Area", type_code := 11 }])
        (fun _ => true),
      z.type ∈ Airspace.priority_types) ∧
    Airspace.find_airspace_for_position
        (Airspace.organize_zones_by_type
          [{ name := "Danger D1", type := "Danger Area", type_code := 11 },
           { name := "Prestwick ATZ", type := "ATZ", type_code := 8 },
           { name := "Danger D2", type := "Danger Area", type_code := 11 }])
        (fun _ => true)
      = [{ name := "Danger D1", type := "Danger Area", type_code := 11 },
         { name := "Danger D2", type := "Danger Area", type_code := 11 },
         { name := "Prestwick ATZ", type := "ATZ", type_code := 8 }] :=
  ⟨(C4_priority_first_ordering
      [{ name := "Scottish TMA", type := "TMA", type_code := 7 },
       { name := "Danger D1", type := "Danger Area", type_code := 11 }]
      (fun _ => true)).2.2.1
      ⟨{ name := "Scottish TMA", type := "TMA", type_code := 7 }, by decide⟩,
   ((C4_priority_first_ordering
      [{ name := "Danger D1", type := "Danger Area", type_code := 11 },
       { name := "Prestwick ATZ", type := "ATZ", type_code := 8 },
       { name := "Danger D2", type := "Danger Area", type_code := 11 }]
      (fun _ => true)).2.2.2 (by decide)).trans (by decide)⟩

/-! ## Semantic index (`ai_server.py`)

`rebuild_index` mutates the module globals `index` and `metadata` in
place: it first rebinds them to an empty `IndexFlatIP` and `[]`, then
computes embeddings (skipping failures), then calls `index.add` on the
embedding matrix, and only then extends `metadata` with the first
`len(embeddings_list)` summaries.  Readers can observe the globals
between any two of those statements, so the rebuild is modelled as the
list of observable `(index, metadata)` states in program order.  The
embedder is external; `embedOk` tells which summaries embed
successfully, and a stored vector is represented by the summary it was
embedded from. -/

namespace AIServer

/-- One observable state of the module globals `(index, metadata)`. -/
structure LiveIndex where
  vectors : List String
  metadata : List String
deriving DecidableEq

/-- The sequence of states of the globals that `rebuild_index` exposes to
readers, in program order: the state on entry; the state after the
reset `index = faiss.IndexFlatIP(...); metadata = []`; the state after
`index.add(emb_matrix)`; and the state after
`metadata.extend(summaries[:len(embeddings_list)])`.  With no summaries
the function returns before touching the globals; with no successful
embedding it stops after the reset. -/
def rebuild_index_states (old : LiveIndex) (summaries : List String)
    (embedOk : String → Bool) : List LiveIndex :=
  if summaries.isEmpty then [old]
  else
    let embeddings_list := summaries.filter embedOk
    if embeddings_list.isEmpty then [old, ⟨[], []⟩]
    else
      [old, ⟨[], []⟩,
       ⟨embeddings_list, []⟩,
       ⟨embeddings_list, summaries.take embeddings_list.length⟩]

/-- `ask_question`'s search over the live index.  `scores` is the inner
product of the (normalized) query embedding with each stored vector, in
index order; faiss's `index.search(q, k)` returns the `k` best
`(score, row)` pairs by descending score, modelled as a sort under the
strict priority "higher score first, earlier row first on ties". -/
def scoreGe (a b : ℚ × ℕ) : Prop := b.1 < a.1 ∨ (a.1 = b.1 ∧ a.2 ≤ b.2)

instance : DecidableRel scoreGe := fun a b => by unfold scoreGe; infer_instance

instance : IsTotal (ℚ × ℕ) scoreGe where
  total a b := by
    rcases lt_trichotomy a.1 b.1 with h | h | h
    · exact Or.inr (Or.inl h)
    · rcases Nat.le_total a.2 b.2 with h2 | h2
      · exact Or.inl (Or.inr ⟨h, h2⟩)
      · exact Or.inr (Or.inr ⟨h.symm, h2⟩)
    · exact Or.inl (Or.inl h)

instance : IsTrans (ℚ × ℕ) scoreGe where
  trans a b c hab hbc := by
    rcases hab with h1 | ⟨e1, l1⟩
    · rcases hbc with h2 | ⟨e2, l2⟩
      · exact Or.inl (h2.trans h1)
      · exact Or.inl (e2 ▸ h1)
    · rcases hbc with h2 | ⟨e2, l2⟩
      · exact Or.inl (e1 ▸ h2)
      · exact Or.inr ⟨e1.trans e2, l1.trans l2⟩

/-- `index.search(query_emb, search_k)`: the `search_k` best
`(score, row)` pairs, best first. -/
def faiss_search (scores : List ℚ) (search_k : ℕ) : List (ℚ × ℕ) :=
  (List.insertionSort scoreGe (scores.zip (List.range scores.length))).take search_k

/-- The candidate set examined by `ask_question`:
`search_k = min(max_results * 3, len(metadata))`. -/
def searchCandidates (scores : List ℚ) (metadata : List String)
    (max_results : ℕ) : List (ℚ × ℕ) :=
  faiss_search scores (min (max_results * 3) metadata.length)

/-- `ask_question`: embed the query, search the top
`min(max_results * 3, len(metadata))` rows, keep rows above the
confidence threshold, and truncate to `max_results`.  Returns the
`(text, score)` pairs of the serialized results. -/
def ask_question (scores : List ℚ) (metadata : List String) (threshold : ℚ)
    (max_results : ℕ) : List (String × ℚ) :=
  if metadata.isEmpty then []
  else
    let filtered_results :=
      (searchCandidates scores metadata max_results).filter
        (fun c => decide (c.2 < metadata.length) && decide (threshold ≤ c.1))
    (filtered_results.take max_results).map (fun c => (metadata.getD c.2 "", c.1))

end AIServer

/-- C1, counterexample.  The claim says no reader of the live index ever
observes vector and metadata counts that differ; but `rebuild_index`
rebinds the globals to an empty index before building, calls
`index.add` first and extends `metadata` after, so after the `add` of
one vector a reader observes 1 vector and 0 metadata entries. -/
theorem C1_counterexample :
    ∃ s ∈ AIServer.rebuild_index_states ⟨[], []⟩ ["a"] (fun _ => true),
      s.vectors.length ≠ s.metadata.length := by decide

/-- C1, amended.  A rebuild is not an atomic swap: with at least one
successfully embedded summary the rebuild passes through the torn state
"`k` vectors, 0 metadata entries" (and through the empty reset state
before that); only the final state restores
`index size = metadata count`, provided the state on entry satisfied it
too. -/
theorem C1_rebuild_torn_state (old : AIServer.LiveIndex)
    (summaries : List String) (embedOk : String → Bool)
    (hold : old.vectors.length = old.metadata.length) :
    (∀ last, (AIServer.rebuild_index_states old summaries embedOk).getLast? = some last →
      last.vectors.length = last.metadata.length) ∧
    ((summaries.filter embedOk) ≠ [] →
      ∃ s ∈ AIServer.rebuild_index_states old summaries embedOk,
        0 < s.vectors.length ∧ s.metadata.length = 0) := by
  unfold AIServer.rebuild_index_states
  by_cases hs : summaries.isEmpty
  · rw [if_pos hs]
    constructor
    · intro last hlast
      simp only [List.getLast?_singleton, Option.some.injEq] at hlast
      rw [← hlast]
      exact hold
    · intro hne
      exfalso
      rw [List.isEmpty_iff] at hs
      rw [hs] at hne
      simp at hne
  · rw [if_neg hs]
    by_cases hemb : (summaries.filter embedOk).isEmpty
    · rw [if_pos hemb]
      constructor
      · intro last hlast
        have h2 : ([old, (⟨[], []⟩ : AIServer.LiveIndex)]).getLast? =
            some (⟨[], []⟩ : AIServer.LiveIndex) := rfl
        rw [h2] at hlast
        cases hlast
        rfl
      · intro hne
        rw [List.isEmpty_iff] at hemb
        exact absurd hemb hne
    · rw [if_neg hemb]
      rw [List.isEmpty_iff] at hemb
      constructor
      · intro last hlast
        have h4 : ([old, ⟨[], []⟩, ⟨summaries.filter embedOk, []⟩,
            ⟨summaries.filter embedOk, summaries.take (summaries.filter embedOk).length⟩] :
            List AIServer.LiveIndex).getLast? =
            some ⟨summaries.filter embedOk,
                  summaries.take (summaries.filter embedOk).length⟩ := rfl
        rw [h4] at hlast
        cases hlast
        simp only [List.length_take]
        have hle := List.length_filter_le embedOk summaries
        omega
      · intro _
        refine ⟨⟨summaries.filter embedOk, []⟩, ?_, ?_, rfl⟩
        · simp
        · simpa [List.length_pos] using hemb

/-- C1, witness for `C1_rebuild_torn_state` at a concrete rebuild of one
summary whose embedding succeeds. -/
theorem C1_rebuild_torn_state_witness :
    ((["radar summary"].filter (fun _ => true)) ≠ []) ∧
      ∃ s ∈ AIServer.rebuild_index_states ⟨["x"], ["x"]⟩ ["radar summary"] (fun _ => true),
        0 < s.vectors.length ∧ s.metadata.length = 0 :=
  ⟨by decide,
    (C1_rebuild_torn_state ⟨["x"], ["x"]⟩ ["radar summary"] (fun _ => true) rfl).2
      (by decide)⟩

/-- C8.  For every semantic query against a consistent live index (one
vector per metadata entry), `ask_question` examines
`min(max_results * 3, len(metadata))` candidates, and the returned
results all score at least the threshold, are ordered by non-increasing
score, and number at most `max_results`. -/
theorem C8_ask_question_contract (scores : List ℚ) (metadata : List String)
    (threshold : ℚ) (max_results : ℕ)
    (hlen : scores.length = metadata.length) :
    (AIServer.searchCandidates scores metadata max_results).length
        = min (max_results * 3) metadata.length ∧
    (AIServer.ask_question scores metadata threshold max_results).length ≤ max_results ∧
    (∀ r ∈ AIServer.ask_question scores metadata threshold max_results, threshold ≤ r.2) ∧
    (AIServer.ask_question scores metadata threshold max_results).Pairwise
      (fun a b => b.2 ≤ a.2) := by
  have hfull_len :
      (List.insertionSort AIServer.scoreGe
        (scores.zip (List.range scores.length))).length = scores.length := by
    rw [(List.perm_insertionSort AIServer.scoreGe
      (scores.zip (List.range scores.length))).length_eq]
    simp
  have hcand :
      (AIServer.searchCandidates scores metadata max_results).length
        = min (max_results * 3) metadata.length := by
    unfold AIServer.searchCandidates AIServer.faiss_search
    rw [List.length_take, hfull_len, hlen]
    omega
  have hsorted :
      (AIServer.searchCandidates scores metadata max_results).Pairwise AIServer.scoreGe :=
    (List.sorted_insertionSort AIServer.scoreGe
      (scores.zip (List.range scores.length))).sublist
      (List.take_sublist _ _)
  refine ⟨hcand, ?_, ?_, ?_⟩
  · unfold AIServer.ask_question
    by_cases hm : metadata.isEmpty
    · rw [if_pos hm]; simp
    · rw [if_neg hm]
      rw [List.length_map]
      exact List.length_take_le _ _
  · intro r hr
    unfold AIServer.ask_question at hr
    by_cases hm : metadata.isEmpty
    · rw [if_pos hm] at hr; simp at hr
    · rw [if_neg hm] at hr
      rcases List.mem_map.mp hr with ⟨c, hc, hcr⟩
      have hcf := List.mem_filter.mp (List.mem_of_mem_take hc)
      have := of_decide_eq_true (Bool.and_elim_right hcf.2)
      rw [← hcr]
      exact this
  · unfold AIServer.ask_question
    by_cases hm : metadata.isEmpty
    · rw [if_pos hm]; exact List.Pairwise.nil
    · rw [if_neg hm]
      refine List.Pairwise.map _ ?_
        (((hsorted.sublist (List.filter_sublist _)).sublist (List.take_sublist _ _)))
      intro a b hab
      rcases hab with hlt | ⟨heq, _⟩
      · exact le_of_lt hlt
      · exact le_of_eq heq.symm

/-- C8, witness for `C8_ask_question_contract` on a two-entry index. -/
theorem C8_ask_question_contract_witness :
    ([(1 : ℚ), 2].length = ["a", "b"].length) ∧
    ((AIServer.searchCandidates [(1 : ℚ), 2] ["a", "b"] 1).length
        = min (1 * 3) ["a", "b"].length ∧
    (AIServer.ask_question [(1 : ℚ), 2] ["a", "b"] 0 1).length ≤ 1 ∧
    (∀ r ∈ AIServer.ask_question [(1 : ℚ), 2] ["a", "b"] 0 1, (0 : ℚ) ≤ r.2) ∧
    (AIServer.ask_question [(1 : ℚ), 2] ["a", "b"] 0 1).Pairwise
      (fun a b => b.2 ≤ a.2)) :=
  ⟨rfl, C8_ask_question_contract [(1 : ℚ), 2] ["a", "b"] 0 1 rfl⟩

/-! ## AIS consumer (`ais_stream_client.py`)

The vessel map `self.vessels` is an association list keyed by MMSI.
Timestamps (`datetime.now()` / `last_update`) are modelled as epoch
seconds over `ℤ`; coordinates, speeds and distances over `ℚ`.  The
haversine distance and forward-azimuth bearing use transcendental
functions, so `get_vessels_in_range` takes them as abstract function
parameters.  Python's `round(x, 1)` (banker's rounding to one decimal)
is modelled exactly over `ℚ`. -/

/-- Python `round(x, 1)`: round `10 x` half-to-even, divide by 10. -/
def pyRound1 (x : ℚ) : ℚ :=
  let y : ℚ := 10 * x
  let f : ℤ := ⌊y⌋
  let r : ℚ := y - f
  let n : ℤ :=
    if r < 1/2 then f
    else if 1/2 < r then f + 1
    else if f % 2 = 0 then f else f + 1
  (n : ℚ) / 10

namespace AIS

/-- `self.nav_status` (navigation status code → label). -/
def navStatusTable : List (ℕ × String) :=
  [(0, "Under way using engine"), (1, "At anchor"), (2, "Not under command"),
   (3, "Restricted maneuverability"), (4, "Constrained by draught"), (5, "Moored"),
   (6, "Aground"), (7, "Engaged in fishing"), (8, "Under way sailing"),
   (9, "Reserved for HSC"), (10, "Reserved for WIG"),
   (11, "Power-driven vessel towing astern"), (12, "Power-driven vessel pushing ahead"),
   (13, "Reserved"), (14, "AIS-SART"), (15, "Undefined")]

/-- `self.nav_status.get(code, f"Unknown ({code})")`. -/
def navStatusName (code : ℕ) : String :=
  (navStatusTable.lookup code).getD ("Unknown (" ++ toString code ++ ")")

/-- `self.vessel_types` (ship-and-cargo code → label). -/
def vesselTypesTable : List (ℕ × String) :=
  [(0, "Not specified"),
   (20, "Wing in ground"), (21, "Wing in ground (hazardous)"), (22, "Wing in ground (reserved)"),
   (30, "Fishing"), (31, "Towing"), (32, "Towing (large)"), (33, "Dredging"),
   (34, "Diving ops"), (35, "Military ops"), (36, "Sailing"), (37, "Pleasure craft"),
   (40, "High speed craft"), (41, "High speed craft (hazardous)"),
   (42, "High speed craft (reserved)"),
   (50, "Pilot vessel"), (51, "Search and rescue"), (52, "Tug"), (53, "Port tender"),
   (54, "Anti-pollution"), (55, "Law enforcement"), (56, "Spare - local vessel"),
   (57, "Spare - local vessel"), (58, "Medical transport"), (59, "Non-combatant ship"),
   (60, "Passenger"), (61, "Passenger (hazardous)"), (62, "Passenger (reserved)"),
   (63, "Passenger (reserved)"), (64, "Passenger (reserved)"), (65, "Passenger (reserved)"),
   (66, "Passenger (reserved)"), (67, "Passenger (reserved)"), (68, "Passenger (reserved)"),
   (69, "Passenger (no info)"),
   (70, "Cargo"), (71, "Cargo (hazardous)"), (72, "Cargo (reserved)"),
   (73, "Cargo (reserved)"), (74, "Cargo (reserved)"), (75, "Cargo (reserved)"),
   (76, "Cargo (reserved)"), (77, "Cargo (reserved)"), (78, "Cargo (reserved)"),
   (79, "Cargo (no info)"),
   (80, "Tanker"), (81, "Tanker (hazardous)"), (82, "Tanker (reserved)"),
   (83, "Tanker (reserved)"), (84, "Tanker (reserved)"), (85, "Tanker (reserved)"),
   (86, "Tanker (reserved)"), (87, "Tanker (reserved)"), (88, "Tanker (reserved)"),
   (89, "Tanker (no info)"),
   (90, "Other"), (91, "Other (hazardous)"), (92, "Other (reserved)"),
   (93, "Other (reserved)"), (94, "Other (reserved)"), (95, "Other (reserved)"),
   (96, "Other (reserved)"), (97, "Other (reserved)"), (98, "Other (reserved)"),
   (99, "Other (no info)")]

/-- `self.vessel_types.get(code, f"Unknown ({code})")`. -/
def vesselTypeName (code : ℕ) : String :=
  (vesselTypesTable.lookup code).getD ("Unknown (" ++ toString code ++ ")")

/-- The fields of a decoded AIS `Message`; `none` means the key is
absent from the inbound JSON. -/
structure AISMessage where
  UserID : Option ℕ := none
  Latitude : Option ℚ := none
  Longitude : Option ℚ := none
  SpeedOverGround : Option ℚ := none
  CourseOverGround : Option ℚ := none
  TrueHeading : Option ℤ := none
  NavigationalStatus : Option ℕ := none
  ShipAndCargoType : Option ℕ := none
  VesselName : Option String := none
  CallSign : Option String := none
  Destination : Option String := none
  DimToBow : Option ℤ := none
  DimToStern : Option ℤ := none
  DimToPort : Option ℤ := none
  DimToStarboard : Option ℤ := none
deriving DecidableEq

/-- A per-vessel record of `self.vessels`. -/
structure Vessel where
  mmsi : ℕ
  last_update : Option ℤ := none
  lat : Option ℚ := none
  lon : Option ℚ := none
  speed : Option ℚ := none
  course : Option ℚ := none
  heading : Option ℤ := none
  nav_status : Option String := none
  vessel_type : Option String := none
  name : Option String := none
  callsign : Option String := none
  destination : Option String := none
  length : Option ℤ := none
  width : Option ℤ := none
deriving DecidableEq

/-- `self.vessels[mmsi] = vessel`: replace the binding in place when the
key is bound (dictionary keys are unique, so at most one binding
exists), or append a new binding. -/
def mapInsert (m : List (ℕ × Vessel)) (k : ℕ) (v : Vessel) : List (ℕ × Vessel) :=
  match m with
  | [] => [(k, v)]
  | p :: ps => if p.1 == k then (k, v) :: ps else p :: mapInsert ps k v

/-- The net per-field effect of the guarded mutations of
`_process_ais_message` on one vessel record: each Python statement
writes one field only when its message key(s) are present, and
`last_update` is always written.  The statements are independent, so
the merged record is the pointwise combination below (in source order
of the fields). -/
def mergedVessel (message : AISMessage) (vessel : Vessel) (now : ℤ) : Vessel :=
  { mmsi := vessel.mmsi
    last_update := some now
    lat := match message.Latitude, message.Longitude with
           | some la, some _ => some la
           | _, _ => vessel.lat
    lon := match message.Latitude, message.Longitude with
           | some _, some lo => some lo
           | _, _ => vessel.lon
    speed := match message.SpeedOverGround with
             | some s => some (pyRound1 s)
             | none => vessel.speed
    course := match message.CourseOverGround with
              | some c => some (pyRound1 c)
              | none => vessel.course
    heading := match message.TrueHeading with
               | some h => some h
               | none => vessel.heading
    nav_status := match message.NavigationalStatus with
                  | some code => some (navStatusName code)
                  | none => vessel.nav_status
    vessel_type := match message.ShipAndCargoType with
                   | some code => some (vesselTypeName code)
                   | none => vessel.vessel_type
    name := match message.VesselName with
            | some n => some (pyStrip n)
            | none => vessel.name
    callsign := match message.CallSign with
                | some c => some (pyStrip c)
                | none => vessel.callsign
    destination := match message.Destination with
                   | some d => some (pyStrip d)
                   | none => vessel.destination
    length := match message.DimToBow, message.DimToStern with
              | some b, some s => some (b + s)
              | _, _ => vessel.length
    width := match message.DimToPort, message.DimToStarboard with
             | some p, some s => some (p + s)
             | _, _ => vessel.width }

/-- `_process_ais_message`: drop messages with no `Message` payload or
no (nonzero) `UserID`; otherwise merge into the existing record for the
MMSI (or a fresh `{'mmsi': mmsi}`) and store it back. -/
def process_ais_message (vessels : List (ℕ × Vessel)) (data : Option AISMessage)
    (now : ℤ) : List (ℕ × Vessel) :=
  match data with
  | none => vessels
  | some message =>
    match message.UserID with
    | none => vessels
    | some mmsi =>
      if mmsi = 0 then vessels
      else
        let vessel := (vessels.lookup mmsi).getD { mmsi := mmsi }
        mapInsert vessels mmsi (mergedVessel message vessel now)

end AIS


namespace AIS

theorem mapInsert_lookup_self (m : List (ℕ × Vessel)) (k : ℕ) (v : Vessel) :
    (mapInsert m k v).lookup k = some v := by
  induction m with
  | nil => simp [mapInsert, List.lookup]
  | cons p ps ih =>
    unfold mapInsert
    cases hb : p.1 == k
    · rw [if_neg (by simp)]
      simp only [List.lookup]
      have : (k == p.1) = false := by
        cases hc : k == p.1
        · rfl
        · rw [eq_of_beq hc] at hb
          simp at hb
      rw [this]
      exact ih
    · rw [if_pos rfl]
      simp [List.lookup]

theorem mapInsert_lookup_other (m : List (ℕ × Vessel)) (k : ℕ) (v : Vessel)
    (k' : ℕ) (h : k' ≠ k) : (mapInsert m k v).lookup k' = m.lookup k' := by
  induction m with
  | nil =>
    simp only [mapInsert, List.lookup]
    have : (k' == k) = false := by simpa using h
    rw [this]
  | cons p ps ih =>
    unfold mapInsert
    cases hb : p.1 == k
    · rw [if_neg (by simp)]
      simp only [List.lookup]
      cases hd : k' == p.1
      · exact ih
      · rfl
    · rw [if_pos rfl]
      simp only [List.lookup]
      have h1 : (k' == k) = false := by simpa using h
      have h2 : (k' == p.1) = false := by
        rw [eq_of_beq hb]
        exact h1
      rw [h1, h2]

end AIS

/-- C9.  Each inbound AIS message merges into the per-vessel record
updating only the fields whose keys are present: every vessel field
whose message key(s) are absent keeps its previous value,
`last_update` is set to the current time on every merge, and vessels
under other MMSIs are untouched. -/
theorem C9_partial_merge (vessels : List (ℕ × AIS.Vessel))
    (message : AIS.AISMessage) (now : ℤ) (mmsi : ℕ)
    (hid : message.UserID = some mmsi) (hnz : mmsi ≠ 0) :
    ∃ v', (AIS.process_ais_message vessels (some message) now).lookup mmsi = some v' ∧
      (let old := (vessels.lookup mmsi).getD { mmsi := mmsi };
        v'.last_update = some now ∧
        v'.mmsi = old.mmsi ∧
        ((message.Latitude = none ∨ message.Longitude = none) →
          v'.lat = old.lat ∧ v'.lon = old.lon) ∧
        (message.SpeedOverGround = none → v'.speed = old.speed) ∧
        (message.CourseOverGround = none → v'.course = old.course) ∧
        (message.TrueHeading = none → v'.heading = old.heading) ∧
        (message.NavigationalStatus = none → v'.nav_status = old.nav_status) ∧
        (message.ShipAndCargoType = none → v'.vessel_type = old.vessel_type) ∧
        (message.VesselName = none → v'.name = old.name) ∧
        (message.CallSign = none → v'.callsign = old.callsign) ∧
        (message.Destination = none → v'.destination = old.destination) ∧
        ((message.DimToBow = none ∨ message.DimToStern = none) →
          v'.length = old.length) ∧
        ((message.DimToPort = none ∨ message.DimToStarboard = none) →
          v'.width = old.width)) ∧
      (∀ k, k ≠ mmsi →
        (AIS.process_ais_message vessels (some message) now).lookup k =
          vessels.lookup k) := by
  have hproc : AIS.process_ais_message vessels (some message) now =
      AIS.mapInsert vessels mmsi
        (AIS.mergedVessel message ((vessels.lookup mmsi).getD { mmsi := mmsi }) now) := by
    simp only [AIS.process_ais_message, hid, if_neg hnz]
  refine ⟨AIS.mergedVessel message ((vessels.lookup mmsi).getD { mmsi := mmsi }) now,
    by rw [hproc]; exact AIS.mapInsert_lookup_self _ _ _, ?_, ?_⟩
  · refine ⟨rfl, rfl, ?_, ?_, ?_, ?_, ?_, ?_, ?_, ?_, ?_, ?_, ?_⟩
    · rintro (h | h) <;> simp only [AIS.mergedVessel] <;> rw [h]
      all_goals constructor
      all_goals
        first
        | rfl
        | (cases message.Latitude <;> rfl)
    · intro h; simp only [AIS.mergedVessel]; rw [h]
    · intro h; simp only [AIS.mergedVessel]; rw [h]
    · intro h; simp only [AIS.mergedVessel]; rw [h]
    · intro h; simp only [AIS.mergedVessel]; rw [h]
    · intro h; simp only [AIS.mergedVessel]; rw [h]
    · intro h; simp only [AIS.mergedVessel]; rw [h]
    · intro h; simp only [AIS.mergedVessel]; rw [h]
    · intro h; simp only [AIS.mergedVessel]; rw [h]
    · rintro (h | h) <;> simp only [AIS.mergedVessel] <;> rw [h]
      all_goals
        first
        | rfl
        | (cases message.DimToBow <;> rfl)
    · rintro (h | h) <;> simp only [AIS.mergedVessel] <;> rw [h]
      all_goals
        first
        | rfl
        | (cases message.DimToPort <;> rfl)
  · intro k hk
    rw [hproc]
    exact AIS.mapInsert_lookup_other _ _ _ _ hk

/-- C9, witness for `C9_partial_merge`: a position-only message merged
over a vessel that already has a name. -/
theorem C9_partial_merge_witness :
    (({ UserID := some 7, Latitude := some 55, Longitude := some (-4) } :
        AIS.AISMessage).UserID = some 7) ∧ (7 : ℕ) ≠ 0 ∧
    ∃ v', (AIS.process_ais_message [(7, { mmsi := 7, name := some "TEST" })]
        (some { UserID := some 7, Latitude := some 55, Longitude := some (-4) })
        100).lookup 7 = some v' ∧ v'.last_update = some 100 ∧ v'.name = some "TEST" := by
  refine ⟨rfl, by decide, ?_⟩
  obtain ⟨v', hv', hprops, -⟩ :=
    C9_partial_merge [(7, { mmsi := 7, name := some "TEST" })]
      { UserID := some 7, Latitude := some 55, Longitude := some (-4) } 100 7 rfl (by decide)
  refine ⟨v', hv', hprops.1, ?_⟩
  have hname := hprops.2.2.2.2.2.2.2.2.1 rfl
  simpa using hname

namespace AIS

/-- An element of the list returned by `get_vessels_in_range`:
`vessel.copy()` plus the computed `distance_nm` and `bearing`. -/
structure VesselOut where
  vessel : Vessel
  distance_nm : ℚ
  bearing : ℚ
deriving DecidableEq

/-- Sort key of the final `vessels_in_range.sort(...)`: ascending
distance. -/
def distLe (a b : VesselOut) : Prop := a.distance_nm ≤ b.distance_nm

instance : DecidableRel distLe := fun a b => by unfold distLe; infer_instance

instance : IsTotal VesselOut distLe := ⟨fun a b => le_total a.distance_nm b.distance_nm⟩

instance : IsTrans VesselOut distLe := ⟨fun _ _ _ hab hbc => le_trans hab hbc⟩

/-- `get_vessels_in_range`: drop vessels whose `last_update` is older
than 600 s (vessels with no `last_update` are not filtered), drop
vessels without a position (the `KeyError` is caught and skipped),
keep those within `range_nm` of the center, and sort by ascending
distance.  `dist` and `bearing` stand for `_haversine_distance` and
`_calculate_bearing`, which use transcendental functions. -/
def get_vessels_in_range (vessels : List (ℕ × Vessel))
    (dist : ℚ → ℚ → ℚ → ℚ → ℚ) (bearing : ℚ → ℚ → ℚ → ℚ → ℚ)
    (center_lat center_lon : ℚ) (range_nm : ℚ) (now : ℤ) : List VesselOut :=
  let vessels_in_range := vessels.filterMap (fun p =>
    let vessel := p.2
    let fresh : Bool :=
      match vessel.last_update with
      | some t => decide (now - t ≤ 600)
      | none => true
    if fresh then
      match vessel.lat, vessel.lon with
      | some la, some lo =>
        let distance_nm := dist center_lat center_lon la lo
        if distance_nm ≤ range_nm then
          some { vessel := vessel
                 distance_nm := pyRound1 distance_nm
                 bearing := bearing center_lat center_lon la lo }
        else none
      | _, _ => none
    else none)
  List.insertionSort distLe vessels_in_range

end AIS

/-- C10.  When every vessel in the map carries a `last_update` stamp
(which every merge of `_process_ais_message` writes), every vessel
returned by `get_vessels_in_range` was updated within the last 600
seconds, even if the staleness janitor has not run. -/
theorem C10_read_time_staleness_filter (vessels : List (ℕ × AIS.Vessel))
    (dist bearing : ℚ → ℚ → ℚ → ℚ → ℚ) (center_lat center_lon range_nm : ℚ)
    (now : ℤ)
    (hstamp : ∀ p ∈ vessels, p.2.last_update.isSome) :
    ∀ out ∈ AIS.get_vessels_in_range vessels dist bearing
        center_lat center_lon range_nm now,
      ∃ t, out.vessel.last_update = some t ∧ now - t ≤ 600 := by
  intro out hout
  unfold AIS.get_vessels_in_range at hout
  have hout' := (List.perm_insertionSort AIS.distLe _).mem_iff.mp hout
  rcases List.mem_filterMap.mp hout' with ⟨p, hp, hpe⟩
  obtain ⟨t, ht⟩ := Option.isSome_iff_exists.mp (hstamp p hp)
  simp only [ht] at hpe
  by_cases hfresh : now - t ≤ 600
  · rw [if_pos (by simpa using hfresh)] at hpe
    cases hla : p.2.lat with
    | none =>
      simp only [hla] at hpe
      exact Option.noConfusion hpe
    | some la =>
      cases hlo : p.2.lon with
      | none =>
        simp only [hla, hlo] at hpe
        exact Option.noConfusion hpe
      | some lo =>
        simp only [hla, hlo] at hpe
        by_cases hd : dist center_lat center_lon la lo ≤ range_nm
        · rw [if_pos hd] at hpe
          simp only [Option.some.injEq] at hpe
          refine ⟨t, ?_, hfresh⟩
          rw [← hpe]
          exact ht
        · rw [if_neg hd] at hpe
          simp at hpe
  · rw [if_neg (by simpa using hfresh)] at hpe
    simp at hpe

/-- C10, witness for `C10_read_time_staleness_filter` on a one-vessel
map with a fresh stamp. -/
theorem C10_read_time_staleness_filter_witness :
    (∀ p ∈ [((5 : ℕ),
        ({ mmsi := 5, last_update := some 90, lat := some 55, lon := some (-4) } :
          AIS.Vessel))], p.2.last_update.isSome) ∧
    ∀ out ∈ AIS.get_vessels_in_range
        [(5, { mmsi := 5, last_update := some 90, lat := some 55, lon := some (-4) })]
        (fun _ _ _ _ => 0) (fun _ _ _ _ => 0) 55 (-4) 10 100,
      ∃ t, out.vessel.last_update = some t ∧ (100 : ℤ) - t ≤ 600 :=
  ⟨by decide,
    C10_read_time_staleness_filter
      [(5, { mmsi := 5, last_update := some 90, lat := some 55, lon := some (-4) })]
      (fun _ _ _ _ => 0) (fun _ _ _ _ => 0) 55 (-4) 10 100 (by decide)⟩

namespace AIS

/-- What one pass of the connection loop of `_connect_websocket`
observes: either the connect/subscribe raises, or the connection is
established (resetting `retry_count` to 0) and `receives` messages
arrive before the socket errors or closes. -/
inductive ConnOutcome where
  | connectFail
  | connected (receives : ℕ)
deriving DecidableEq

/-- The observable outcome of running `_connect_websocket`'s loop
against a schedule of connection outcomes. -/
structure ConnRun where
  /-- Each executed `asyncio.sleep`, as
  `(retry_count at the sleep, seconds slept)`. -/
  waits : List (ℕ × ℕ)
  /-- The value of `retry_count` observed during the receive phase of
  each connection that delivered at least one message. -/
  recvCounters : List ℕ
  /-- `retry_count` when the schedule ran out or the loop exited. -/
  retry_count : ℕ
  /-- `self.running` after the loop (`False` once retries are
  exhausted). -/
  running : Bool
deriving DecidableEq

/-- The loop of `_connect_websocket` (`max_retries = 5`): while running
and `retry_count < 5`, attempt a connection; a successful subscribe
resets `retry_count` to 0; any termination of the attempt increments
it; when the incremented count is still below 5 the loop sleeps
`min(2 ** retry_count, 60)` seconds and retries, otherwise it exits and
sets `self.running = False`. -/
def connect_websocket (retry_count : ℕ) : List ConnOutcome → ConnRun
  | [] =>
    if 5 ≤ retry_count then ⟨[], [], retry_count, false⟩
    else ⟨[], [], retry_count, true⟩
  | outcome :: rest =>
    if 5 ≤ retry_count then ⟨[], [], retry_count, false⟩
    else
      let rcMid := match outcome with
        | .connectFail => retry_count
        | .connected _ => 0
      let recvObs : List ℕ := match outcome with
        | .connected (_ + 1) => [rcMid]
        | _ => []
      let rcNew := rcMid + 1
      if rcNew < 5 then
        let r := connect_websocket rcNew rest
        ⟨(rcNew, min (2 ^ rcNew) 60) :: r.waits, recvObs ++ r.recvCounters,
         r.retry_count, r.running⟩
      else ⟨[], recvObs, rcNew, false⟩

end AIS

/-- C7.  The AIS consumer's reconnect loop (a) sleeps
`min(2 ** attempt, 60)` seconds before each retry — so every wait is
capped at 60 s and in fact the attempt counter never exceeds 4 at a
sleep; (b) halts (clears `self.running`, while the process keeps
running) after 5 consecutive connection failures, having slept
2, 4, 8 and 16 seconds, regardless of the rest of the schedule, and is
still running after at most 4 consecutive failures; and (c) a
connection whose subscribe succeeds resets the attempt counter, so any
successful receive observes counter 0. -/
theorem C7_reconnect_policy :
    (∀ (rc : ℕ) (outs : List AIS.ConnOutcome),
      ∀ w ∈ (AIS.connect_websocket rc outs).waits,
        w.2 = min (2 ^ w.1) 60 ∧ 1 ≤ w.1 ∧ w.1 ≤ 4 ∧ w.2 ≤ 60) ∧
    (∀ rest : List AIS.ConnOutcome,
      AIS.connect_websocket 0 (List.replicate 5 .connectFail ++ rest) =
        ⟨[(1, 2), (2, 4), (3, 8), (4, 16)], [], 5, false⟩) ∧
    (∀ n < 5, (AIS.connect_websocket 0 (List.replicate n .connectFail)).running = true) ∧
    (∀ (rc n : ℕ) (rest : List AIS.ConnOutcome), rc < 5 →
      (AIS.connect_websocket rc (.connected (n + 1) :: rest)).recvCounters.head? =
        some 0) := by
  refine ⟨?_, ?_, ?_, ?_⟩
  · intro rc outs
    induction outs generalizing rc with
    | nil =>
      intro w hw
      simp only [AIS.connect_websocket] at hw
      split at hw <;> simp at hw
    | cons o rest ih =>
      intro w hw
      simp only [AIS.connect_websocket] at hw
      split at hw
      · simp at hw
      · rename_i hrc
        set rcMid := (match o with
          | AIS.ConnOutcome.connectFail => rc
          | AIS.ConnOutcome.connected _ => 0) with hmid
        by_cases hlt : rcMid + 1 < 5
        · rw [if_pos hlt] at hw
          rcases List.mem_cons.mp hw with hw1 | hw2
          · have hmid5 : rcMid + 1 ≤ 4 := by omega
            have h1 : 1 ≤ rcMid + 1 := by omega
            subst hw1
            refine ⟨rfl, h1, hmid5, ?_⟩
            exact min_le_right _ _
          · exact ih (rcMid + 1) w hw2
        · rw [if_neg hlt] at hw
          simp at hw
  · intro rest
    simp only [List.replicate, List.cons_append, List.nil_append]
    simp [AIS.connect_websocket]
  · decide
  · intro rc n rest hrc
    simp only [AIS.connect_websocket, if_neg (by omega : ¬ 5 ≤ rc)]
    norm_num

/-- C7, witness for `C7_reconnect_policy`, instantiating each part at a
concrete schedule. -/
theorem C7_reconnect_policy_witness :
    (((1 : ℕ), (2 : ℕ)) ∈
      (AIS.connect_websocket 0 [.connectFail, .connected 3]).waits ∧
      (2 : ℕ) = min (2 ^ 1) 60 ∧ 1 ≤ 1 ∧ 1 ≤ 4 ∧ 2 ≤ 60) ∧
    ((4 : ℕ) < 5 ∧
      (AIS.connect_websocket 0 (List.replicate 4 .connectFail)).running = true) ∧
    ((3 : ℕ) < 5 ∧
      (AIS.connect_websocket 3 (.connected 1 :: [])).recvCounters.head? = some 0) := by
  refine ⟨⟨by decide, ?_⟩, ⟨by decide, C7_reconnect_policy.2.2.1 4 (by decide)⟩,
    ⟨by decide, C7_reconnect_policy.2.2.2 3 0 [] (by decide)⟩⟩
  exact C7_reconnect_policy.1 0 [.connectFail, .connected 3] (1, 2) (by decide)

/-! ## Historical store (`radar_database.py`)

The four relations touched by the modelled operations are kept as lists
in insertion order: `aircraft_contacts` and `flight_events` are
append-only, `aircraft_summary` is an association list keyed by hex
(the SQL primary key), and `ship_contacts` carries the columns the
modelled operations read (`cleanup_old_data` only filters it by
timestamp).  `time.time()` timestamps and altitudes are over `ℤ`; the
JSON `details` blob of an event row is modelled structurally.  SQLite
serializes every store inside one transaction, so `store_aircraft_contact`
is a single state transition whose event detector already sees the
freshly inserted contact row (it was inserted earlier in the same
transaction). -/

namespace RadarDB

/-- The `status` sub-dictionary of an aircraft record. -/
structure StatusInfo where
  phase : Option String := none
  atc : Option String := none
  intention : Option String := none
deriving DecidableEq

/-- The `airspace` sub-dictionary of an aircraft record. -/
structure AirspaceInfo where
  type : Option String := none
  name : Option String := none
deriving DecidableEq

/-- An inbound aircraft dictionary (`aircraft_data`); `none` marks an
absent key. -/
structure AircraftData where
  hex : String := ""
  flight : Option String := none
  lat : Option ℚ := none
  lon : Option ℚ := none
  alt_baro : Option ℤ := none
  alt_geom : Option ℤ := none
  gs : Option ℚ := none
  track : Option ℚ := none
  baro_rate : Option ℤ := none
  squawk : Option String := none
  category : Option String := none
  seen : Option ℚ := none
  rssi : Option ℚ := none
  messages : Option ℤ := none
  airspace : Option AirspaceInfo := none
  status : Option StatusInfo := none
deriving DecidableEq

/-- `aircraft_data.get('status', dict()).get('phase')` and friends. -/
def statusPhase (d : AircraftData) : Option String :=
  match d.status with
  | some s => s.phase
  | none => none

def statusAtc (d : AircraftData) : Option String :=
  match d.status with
  | some s => s.atc
  | none => none

def statusIntention (d : AircraftData) : Option String :=
  match d.status with
  | some s => s.intention
  | none => none

def airspaceType (d : AircraftData) : Option String :=
  match d.airspace with
  | some a => a.type
  | none => none

def airspaceName (d : AircraftData) : Option String :=
  match d.airspace with
  | some a => a.name
  | none => none

/-- A row of `aircraft_contacts`. -/
structure ContactRow where
  hex : String
  flight : String
  timestamp : ℤ
  lat : Option ℚ := none
  lon : Option ℚ := none
  alt_baro : Option ℤ := none
  alt_geom : Option ℤ := none
  gs : Option ℚ := none
  track : Option ℚ := none
  baro_rate : Option ℤ := none
  squawk : Option String := none
  category : Option String := none
  seen : Option ℚ := none
  rssi : Option ℚ := none
  messages : Option ℤ := none
  airspace_type : Option String := none
  airspace_name : Option String := none
  flight_phase : Option String := none
  atc_center : Option String := none
  intention : Option String := none
  raw_data : AircraftData := {}
deriving DecidableEq

/-- The JSON `details` blob of a `flight_events` row, structurally. -/
inductive EventDetails where
  | squawkType (t : String)
  | climbRate (r : String)
  | descentFrom (alt : ℤ)
deriving DecidableEq

/-- A row of `flight_events`. -/
structure EventRow where
  hex : String
  timestamp : ℤ
  event_type : String
  location_lat : Option ℚ := none
  location_lon : Option ℚ := none
  altitude : Option ℤ := none
  airport_code : Option String := none
  squawk_code : Option String := none
  details : EventDetails
  confidence : ℚ := 1
deriving DecidableEq

/-- A row of `aircraft_summary`. -/
structure AircraftSummary where
  hex : String
  first_seen : ℤ
  last_seen : ℤ
  total_contacts : ℕ := 1
  callsigns : List String := []
  airports_visited : List String := []
  max_altitude : ℤ := 0
  min_altitude : ℤ := 0
  total_distance : ℚ := 0
  flight_phases : List String := []
  squawk_codes : List String := []
  airspace_history : List String := []
deriving DecidableEq

/-- A row of `ship_contacts` (only the columns the modelled operations
read; `cleanup_old_data` filters this relation by timestamp only). -/
structure ShipRow where
  mmsi : String
  timestamp : ℤ
deriving DecidableEq

/-- The database state across the modelled operations. -/
structure DB where
  aircraft_contacts : List ContactRow := []
  aircraft_summary : List (String × AircraftSummary) := []
  flight_events : List EventRow := []
  ship_contacts : List ShipRow := []
deriving DecidableEq

def emptyDB : DB := {}

/-- The `INSERT INTO aircraft_contacts` row built by
`store_aircraft_contact`. -/
def mkContactRow (data : AircraftData) (now : ℤ) : ContactRow :=
  { hex := data.hex
    flight := pyStrip (data.flight.getD "")
    timestamp := now
    lat := data.lat
    lon := data.lon
    alt_baro := data.alt_baro
    alt_geom := data.alt_geom
    gs := data.gs
    track := data.track
    baro_rate := data.baro_rate
    squawk := data.squawk
    category := data.category
    seen := data.seen
    rssi := data.rssi
    messages := data.messages
    airspace_type := airspaceType data
    airspace_name := airspaceName data
    flight_phase := statusPhase data
    atc_center := statusAtc data
    intention := statusIntention data
    raw_data := data }

/-- Sort order of the recent-history query:
`ORDER BY timestamp DESC`. -/
def tsDesc (a b : ContactRow) : Prop := b.timestamp ≤ a.timestamp

instance : DecidableRel tsDesc := fun a b => by unfold tsDesc; infer_instance

/-- `SELECT ... FROM aircraft_contacts WHERE hex = ? AND timestamp > ?
ORDER BY timestamp DESC LIMIT 5` with cutoff `now - 300`. -/
def recentContacts (contacts : List ContactRow) (hex_code : String) (now : ℤ) :
    List ContactRow :=
  (List.insertionSort tsDesc
    (contacts.filter
      (fun c => c.hex == hex_code && decide (now - 300 < c.timestamp)))).take 5

/-- `{'7500': 'HIJACK', '7600': 'RADIO_FAILURE', '7700': 'EMERGENCY'}[squawk]`. -/
def emergencyType (squawk : String) : String :=
  if squawk = "7500" then "HIJACK"
  else if squawk = "7600" then "RADIO_FAILURE"
  else "EMERGENCY"

/-- The `if r['alt_baro']` comprehension filter of
`_detect_flight_events`: keep recorded altitudes that are neither
`NULL` nor 0 (Python truthiness). -/
def recentAlts (recent : List ContactRow) : List ℤ :=
  recent.filterMap (fun r =>
    match r.alt_baro with
    | some a => if a = 0 then none else some a
    | none => none)

/-- The emergency-squawk block of `_detect_flight_events`. -/
def emergencyEvents (hex_code : String) (data : AircraftData) (now : ℤ) :
    List EventRow :=
  let squawk := data.squawk.getD "0000"
  if squawk ∈ ["7500", "7600", "7700"] then
    [{ hex := hex_code, timestamp := now, event_type := "EMERGENCY_SQUAWK",
       altitude := some (data.alt_baro.getD 0), squawk_code := some squawk,
       details := .squawkType (emergencyType squawk) }]
  else []

/-- The takeoff-detection block of `_detect_flight_events`. -/
def takeoffEvents (contacts : List ContactRow) (hex_code : String)
    (data : AircraftData) (now : ℤ) : List EventRow :=
  let altitude := data.alt_baro.getD 0
  let recent := recentContacts contacts hex_code now
  if 3 ≤ recent.length ∧ 1000 < altitude then
    match listMinInt (recentAlts recent) with
    | some m =>
      if m < 500 ∧ 800 < altitude - m then
        [{ hex := hex_code, timestamp := now, event_type := "TAKEOFF",
           altitude := some altitude, details := .climbRate "rapid" }]
      else []
    | none => []
  else []

/-- The landing-detection block of `_detect_flight_events`. -/
def landingEvents (contacts : List ContactRow) (hex_code : String)
    (data : AircraftData) (now : ℤ) : List EventRow :=
  let altitude := data.alt_baro.getD 0
  let recent := recentContacts contacts hex_code now
  if 3 ≤ recent.length ∧ altitude < 500 then
    match listMaxInt (recentAlts recent) with
    | some m =>
      if 2000 < m then
        [{ hex := hex_code, timestamp := now, event_type := "LANDING",
           altitude := some altitude, details := .descentFrom m }]
      else []
    | none => []
  else []

/-- `_detect_flight_events`, run inside the transaction after the
contact insert (`contacts` already holds the new row).  Returns the
event rows inserted, in insertion order: the emergency-squawk check,
then takeoff detection, then landing detection. -/
def detect_flight_events (contacts : List ContactRow) (hex_code : String)
    (data : AircraftData) (now : ℤ) : List EventRow :=
  emergencyEvents hex_code data now ++
    (takeoffEvents contacts hex_code data now ++
      landingEvents contacts hex_code data now)

/-- `_update_aircraft_summary`: upsert the per-hex summary row. -/
def update_aircraft_summary (summaries : List (String × AircraftSummary))
    (hex_code : String) (data : AircraftData) (now : ℤ) :
    List (String × AircraftSummary) :=
  let flight := pyStrip (data.flight.getD "")
  let altitude := data.alt_baro.getD 0
  match summaries.lookup hex_code with
  | some existing =>
    let callsigns :=
      if flight ≠ "" ∧ flight ∉ existing.callsigns then existing.callsigns ++ [flight]
      else existing.callsigns
    let flight_phases :=
      match statusPhase data with
      | some p =>
        if p ≠ "" ∧ p ∉ existing.flight_phases then existing.flight_phases ++ [p]
        else existing.flight_phases
      | none => existing.flight_phases
    let squawk_codes :=
      match data.squawk with
      | some s =>
        if s ≠ "" ∧ s ∉ existing.squawk_codes then existing.squawk_codes ++ [s]
        else existing.squawk_codes
      | none => existing.squawk_codes
    summaries.map (fun p =>
      if p.1 == hex_code then
        (p.1, { existing with
                 last_seen := now
                 total_contacts := existing.total_contacts + 1
                 callsigns := callsigns
                 flight_phases := flight_phases
                 squawk_codes := squawk_codes
                 max_altitude := max existing.max_altitude altitude
                 min_altitude := min existing.min_altitude altitude })
      else p)
  | none =>
    summaries ++ [(hex_code,
      { hex := hex_code
        first_seen := now
        last_seen := now
        total_contacts := 1
        callsigns := if flight ≠ "" then [flight] else []
        max_altitude := altitude
        min_altitude := altitude
        flight_phases :=
          match statusPhase data with
          | some p => if p ≠ "" then [p] else []
          | none => []
        squawk_codes :=
          match data.squawk with
          | some s => if s ≠ "" then [s] else []
          | none => [] })]

/-- `store_aircraft_contact`: reject records with no hex; otherwise, in
one transaction, append the contact row, upsert the summary, and run
the event detector (which sees the new row).  Returns the `True/False`
success flag and the new state. -/
def store_aircraft_contact (db : DB) (data : AircraftData) (now : ℤ) : Bool × DB :=
  if data.hex = "" then (false, db)
  else
    let contacts' := db.aircraft_contacts ++ [mkContactRow data now]
    (true,
     { db with
        aircraft_contacts := contacts'
        aircraft_summary := update_aircraft_summary db.aircraft_summary data.hex data now
        flight_events :=
          db.flight_events ++ detect_flight_events contacts' data.hex data now })

/-- `cleanup_old_data`: delete aircraft and ship contacts older than
`days`, recompute `first_seen` on summaries whose hex still has
contacts, drop the other summaries; returns the number of deleted
contact rows and the new state. -/
def cleanup_old_data (db : DB) (days : ℤ) (now : ℤ) : ℕ × DB :=
  let cutoff := now - days * 24 * 3600
  let contacts' := db.aircraft_contacts.filter (fun c => decide (cutoff ≤ c.timestamp))
  let ships' := db.ship_contacts.filter (fun c => decide (cutoff ≤ c.timestamp))
  let aircraft_deleted := db.aircraft_contacts.length - contacts'.length
  let ship_deleted := db.ship_contacts.length - ships'.length
  let summaries' := db.aircraft_summary.filterMap (fun p =>
    match listMinInt ((contacts'.filter (fun c => c.hex == p.1)).map
        (fun c => c.timestamp)) with
    | some m => some (p.1, { p.2 with first_seen := m })
    | none => none)
  (aircraft_deleted + ship_deleted,
   { db with
      aircraft_contacts := contacts'
      aircraft_summary := summaries'
      ship_contacts := ships' })

end RadarDB

namespace RadarDB

/-- The takeoff condition the code implements: at least three recent
contacts (current one included), current altitude above 1000 ft, and
the minimum over the recorded non-null, non-zero recent altitudes below
500 ft with the current altitude more than 800 ft above it. -/
def takeoffCondition (contacts : List ContactRow) (hex_code : String)
    (altitude now : ℤ) : Bool :=
  let recent := recentContacts contacts hex_code now
  match listMinInt (recentAlts recent) with
  | some m =>
    decide (3 ≤ recent.length) && decide (1000 < altitude) &&
      decide (m < 500) && decide (800 < altitude - m)
  | none => false

theorem emergencyEvents_type {hex_code : String} {data : AircraftData} {now : ℤ} :
    ∀ e ∈ emergencyEvents hex_code data now, e.event_type = "EMERGENCY_SQUAWK" := by
  intro e he
  simp only [emergencyEvents] at he
  split at he
  · simp only [List.mem_singleton] at he
    rw [he]
  · simp at he

theorem takeoffEvents_type {contacts : List ContactRow} {hex_code : String}
    {data : AircraftData} {now : ℤ} :
    ∀ e ∈ takeoffEvents contacts hex_code data now, e.event_type = "TAKEOFF" := by
  intro e he
  simp only [takeoffEvents] at he
  split at he
  · split at he
    · split at he
      · simp only [List.mem_singleton] at he
        rw [he]
      · simp at he
    · simp at he
  · simp at he

theorem landingEvents_type {contacts : List ContactRow} {hex_code : String}
    {data : AircraftData} {now : ℤ} :
    ∀ e ∈ landingEvents contacts hex_code data now, e.event_type = "LANDING" := by
  intro e he
  simp only [landingEvents] at he
  split at he
  · split at he
    · split at he
      · simp only [List.mem_singleton] at he
        rw [he]
      · simp at he
    · simp at he
  · simp at he

/-- An `EMERGENCY_SQUAWK` row comes out of `_detect_flight_events`
exactly when the record's squawk (defaulted to `"0000"`) is in the
emergency triad. -/
theorem emergency_emitted_iff (contacts : List ContactRow) (hex_code : String)
    (data : AircraftData) (now : ℤ) :
    (∃ e ∈ detect_flight_events contacts hex_code data now,
        e.event_type = "EMERGENCY_SQUAWK") ↔
      data.squawk.getD "0000" ∈ ["7500", "7600", "7700"] := by
  constructor
  · rintro ⟨e, he, het⟩
    rcases List.mem_append.mp he with h1 | h23
    · simp only [emergencyEvents] at h1
      split at h1
      · assumption
      · simp at h1
    · exfalso
      rcases List.mem_append.mp h23 with h2 | h3
      · rw [takeoffEvents_type e h2] at het
        exact absurd het (by decide)
      · rw [landingEvents_type e h3] at het
        exact absurd het (by decide)
  · intro hsq
    refine ⟨{ hex := hex_code, timestamp := now, event_type := "EMERGENCY_SQUAWK",
              altitude := some (data.alt_baro.getD 0),
              squawk_code := some (data.squawk.getD "0000"),
              details := .squawkType (emergencyType (data.squawk.getD "0000")) },
            List.mem_append.mpr (Or.inl ?_), rfl⟩
    simp only [emergencyEvents, if_pos hsq]
    exact List.mem_singleton.mpr rfl

/-- A `TAKEOFF` row comes out of `_detect_flight_events` exactly when
`takeoffCondition` holds of the recent history. -/
theorem takeoff_emitted_iff (contacts : List ContactRow) (hex_code : String)
    (data : AircraftData) (now : ℤ) :
    (∃ e ∈ detect_flight_events contacts hex_code data now,
        e.event_type = "TAKEOFF") ↔
      takeoffCondition contacts hex_code (data.alt_baro.getD 0) now = true := by
  constructor
  · rintro ⟨e, he, het⟩
    rcases List.mem_append.mp he with h1 | h23
    · rw [emergencyEvents_type e h1] at het
      exact absurd het (by decide)
    · rcases List.mem_append.mp h23 with h2 | h3
      · simp only [takeoffEvents] at h2
        simp only [takeoffCondition]
        split at h2
        · rename_i hc
          split at h2
          · rename_i m hm
            split at h2
            · rename_i hb
              simp only [Bool.and_eq_true, decide_eq_true_eq]
              exact ⟨⟨⟨hc.1, hc.2⟩, hb.1⟩, hb.2⟩
            · simp at h2
          · simp at h2
        · simp at h2
      · rw [landingEvents_type e h3] at het
        exact absurd het (by decide)
  · intro hcond
    simp only [takeoffCondition] at hcond
    cases hm : listMinInt (recentAlts (recentContacts contacts hex_code now)) with
    | none => rw [hm] at hcond; simp at hcond
    | some m =>
      rw [hm] at hcond
      simp only [Bool.and_eq_true, decide_eq_true_eq] at hcond
      refine ⟨{ hex := hex_code, timestamp := now, event_type := "TAKEOFF",
                altitude := some (data.alt_baro.getD 0),
                details := .climbRate "rapid" },
              List.mem_append.mpr (Or.inr (List.mem_append.mpr (Or.inl ?_))), rfl⟩
      simp only [takeoffEvents, if_pos (And.intro hcond.1.1.1 hcond.1.1.2), hm,
        if_pos (And.intro hcond.1.2 hcond.2), List.mem_singleton]

/-- Every `EMERGENCY_SQUAWK` event row matches a stored contact row on
hex, timestamp and squawk, the squawk being in the emergency triad. -/
def eventInv (db : DB) : Prop :=
  ∀ e ∈ db.flight_events, e.event_type = "EMERGENCY_SQUAWK" →
    ∃ c ∈ db.aircraft_contacts, c.hex = e.hex ∧ c.timestamp = e.timestamp ∧
      ∃ s, e.squawk_code = some s ∧ c.squawk = some s ∧
        s ∈ (["7500", "7600", "7700"] : List String)

/-- `store_aircraft_contact` on a record with a hex appends the contact
row and the freshly detected events. -/
theorem store_eq (db : DB) (data : AircraftData) (now : ℤ) (hhex : data.hex ≠ "") :
    store_aircraft_contact db data now =
      (true,
       { db with
          aircraft_contacts := db.aircraft_contacts ++ [mkContactRow data now]
          aircraft_summary := update_aircraft_summary db.aircraft_summary data.hex data now
          flight_events :=
            db.flight_events ++
              detect_flight_events (db.aircraft_contacts ++ [mkContactRow data now])
                data.hex data now }) := by
  simp only [store_aircraft_contact, if_neg hhex]

end RadarDB

/-- C3.  `store_aircraft_contact` emits an `EMERGENCY_SQUAWK` event
exactly when the stored contact's squawk is 7500, 7600 or 7700, and the
invariant that every `EMERGENCY_SQUAWK` event row shares hex, timestamp
and squawk with a stored contact row (whose squawk is in the triad) is
preserved by every store. -/
theorem C3_emergency_squawk_events (db : RadarDB.DB) (data : RadarDB.AircraftData)
    (now : ℤ) (hhex : data.hex ≠ "") (hinv : RadarDB.eventInv db) :
    RadarDB.eventInv (RadarDB.store_aircraft_contact db data now).2 ∧
    (RadarDB.store_aircraft_contact db data now).2.flight_events =
      db.flight_events ++
        RadarDB.detect_flight_events
          (db.aircraft_contacts ++ [RadarDB.mkContactRow data now]) data.hex data now ∧
    ((∃ e ∈ RadarDB.detect_flight_events
          (db.aircraft_contacts ++ [RadarDB.mkContactRow data now]) data.hex data now,
        e.event_type = "EMERGENCY_SQUAWK") ↔
      data.squawk ∈ [some "7500", some "7600", some "7700"]) := by
  have hsquawk_iff :
      data.squawk.getD "0000" ∈ (["7500", "7600", "7700"] : List String) ↔
        data.squawk ∈ [some "7500", some "7600", some "7700"] := by
    cases data.squawk with
    | none => simp
    | some s => simp
  refine ⟨?_, by rw [RadarDB.store_eq db data now hhex], ?_⟩
  · intro e he het
    rw [RadarDB.store_eq db data now hhex] at he ⊢
    simp only at he ⊢
    rcases List.mem_append.mp he with hold | hnew
    · obtain ⟨c, hc, hprops⟩ := hinv e hold het
      exact ⟨c, List.mem_append.mpr (Or.inl hc), hprops⟩
    · rcases List.mem_append.mp hnew with h1 | h23
      · -- emergency block: the new contact row matches the event
        simp only [RadarDB.emergencyEvents] at h1
        split at h1
        · rename_i hsq
          simp only [List.mem_singleton] at h1
          subst h1
          refine ⟨RadarDB.mkContactRow data now,
            List.mem_append.mpr (Or.inr (List.mem_singleton.mpr rfl)), rfl, rfl,
            data.squawk.getD "0000", rfl, ?_, hsq⟩
          cases hs : data.squawk with
          | none =>
            rw [hs] at hsq
            simp at hsq
          | some s =>
            simp [RadarDB.mkContactRow, hs]
        · simp at h1
      · exfalso
        rcases List.mem_append.mp h23 with h2 | h3
        · rw [RadarDB.takeoffEvents_type e h2] at het
          exact absurd het (by decide)
        · rw [RadarDB.landingEvents_type e h3] at het
          exact absurd het (by decide)
  · rw [← hsquawk_iff]
    exact RadarDB.emergency_emitted_iff _ _ _ _

/-- C3, witness for `C3_emergency_squawk_events` on a 7700 contact
against the empty database. -/
theorem C3_emergency_squawk_events_witness :
    (({ hex := "ABC123", alt_baro := some 3000, squawk := some "7700" } :
        RadarDB.AircraftData).hex ≠ "") ∧
    RadarDB.eventInv RadarDB.emptyDB ∧
    ((∃ e ∈ RadarDB.detect_flight_events
          (RadarDB.emptyDB.aircraft_contacts ++
            [RadarDB.mkContactRow
              { hex := "ABC123", alt_baro := some 3000, squawk := some "7700" } 1000])
          "ABC123" { hex := "ABC123", alt_baro := some 3000, squawk := some "7700" } 1000,
        e.event_type = "EMERGENCY_SQUAWK") ↔
      ({ hex := "ABC123", alt_baro := some 3000, squawk := some "7700" } :
          RadarDB.AircraftData).squawk ∈ [some "7500", some "7600", some "7700"]) :=
  ⟨by decide, by intro e he; simp [RadarDB.emptyDB] at he,
    (C3_emergency_squawk_events RadarDB.emptyDB
      { hex := "ABC123", alt_baro := some 3000, squawk := some "7700" } 1000
      (by decide) (by intro e he; simp [RadarDB.emptyDB] at he)).2.2⟩

/-- The takeoff condition exactly as the claim words it (for the
refinement comparison): over the last five contacts for the hex within
the past 300 seconds, the minimum recent altitude is below 500 ft, the
current altitude is above 1000 ft, and current minus the recent minimum
exceeds 800 ft.  (No minimum number of contacts, and every recorded
altitude, zero included, takes part in the minimum.) -/
def specTakeoffCondition (contacts : List RadarDB.ContactRow) (hex_code : String)
    (altitude now : ℤ) : Bool :=
  let recent := RadarDB.recentContacts contacts hex_code now
  match listMinInt (recent.filterMap (fun r => r.alt_baro)) with
  | some m => decide (m < 500) && decide (1000 < altitude) && decide (800 < altitude - m)
  | none => false

/-- C5, counterexample.  Storing a second contact at 1500 ft for a hex
whose only prior contact was at 0 ft satisfies the claim's takeoff
condition (recent minimum 0 < 500, current 1500 > 1000, difference
1500 > 800), yet `_detect_flight_events` emits no event at all: it
requires at least three recent contacts, and it drops zero altitudes
from the minimum. -/
theorem C5_counterexample :
    (specTakeoffCondition
        (RadarDB.store_aircraft_contact
          (RadarDB.store_aircraft_contact RadarDB.emptyDB
            { hex := "AAA111", alt_baro := some 0 } 1000).2
          { hex := "AAA111", alt_baro := some 1500 } 1010).2.aircraft_contacts
        "AAA111" 1500 1010 = true) ∧
    (RadarDB.store_aircraft_contact
        (RadarDB.store_aircraft_contact RadarDB.emptyDB
          { hex := "AAA111", alt_baro := some 0 } 1000).2
        { hex := "AAA111", alt_baro := some 1500 } 1010).2.flight_events = [] := by
  decide

/-- C5, amended.  A TAKEOFF event is emitted by a store exactly when at
least three contacts for the hex (the stored one included) lie within
the past 300 s, the current altitude exceeds 1000 ft, and the minimum
over their recorded non-null, non-zero altitudes is below 500 ft with
the current altitude more than 800 ft above it; the concrete
[0, 100, 400, 1500] scenario still yields exactly one TAKEOFF event
row, with altitude 1500. -/
theorem C5_takeoff_detection :
    (∀ (db : RadarDB.DB) (data : RadarDB.AircraftData) (now : ℤ), data.hex ≠ "" →
      ((∃ e ∈ RadarDB.detect_flight_events
            (db.aircraft_contacts ++ [RadarDB.mkContactRow data now]) data.hex data now,
          e.event_type = "TAKEOFF") ↔
        RadarDB.takeoffCondition
          (db.aircraft_contacts ++ [RadarDB.mkContactRow data now]) data.hex
          (data.alt_baro.getD 0) now = true)) ∧
    ((RadarDB.store_aircraft_contact
        (RadarDB.store_aircraft_contact
          (RadarDB.store_aircraft_contact
            (RadarDB.store_aircraft_contact RadarDB.emptyDB
              { hex := "DEF456", alt_baro := some 0 } 1000).2
            { hex := "DEF456", alt_baro := some 100 } 1010).2
          { hex := "DEF456", alt_baro := some 400 } 1020).2
        { hex := "DEF456", alt_baro := some 1500 } 1040).2.flight_events.map
      (fun e => (e.hex, e.event_type, e.timestamp, e.altitude)) =
      [("DEF456", "TAKEOFF", 1040, some 1500)]) := by
  constructor
  · intro db data now _
    exact RadarDB.takeoff_emitted_iff _ _ _ _
  · decide

/-- C5, witness for `C5_takeoff_detection`, instantiating the emission
equivalence at the fourth contact of the scenario. -/
theorem C5_takeoff_detection_witness :
    (({ hex := "DEF456", alt_baro := some 1500 } : RadarDB.AircraftData).hex ≠ "") ∧
    ((∃ e ∈ RadarDB.detect_flight_events
          ((RadarDB.store_aircraft_contact
              (RadarDB.store_aircraft_contact
                (RadarDB.store_aircraft_contact RadarDB.emptyDB
                  { hex := "DEF456", alt_baro := some 0 } 1000).2
                { hex := "DEF456", alt_baro := some 100 } 1010).2
              { hex := "DEF456", alt_baro := some 400 } 1020).2.aircraft_contacts ++
            [RadarDB.mkContactRow { hex := "DEF456", alt_baro := some 1500 } 1040])
          "DEF456" { hex := "DEF456", alt_baro := some 1500 } 1040,
        e.event_type = "TAKEOFF") ↔
      RadarDB.takeoffCondition
        ((RadarDB.store_aircraft_contact
            (RadarDB.store_aircraft_contact
              (RadarDB.store_aircraft_contact RadarDB.emptyDB
                { hex := "DEF456", alt_baro := some 0 } 1000).2
              { hex := "DEF456", alt_baro := some 100 } 1010).2
            { hex := "DEF456", alt_baro := some 400 } 1020).2.aircraft_contacts ++
          [RadarDB.mkContactRow { hex := "DEF456", alt_baro := some 1500 } 1040])
        "DEF456" 1500 1040 = true) :=
  ⟨by decide,
    C5_takeoff_detection.1
      (RadarDB.store_aircraft_contact
        (RadarDB.store_aircraft_contact
          (RadarDB.store_aircraft_contact RadarDB.emptyDB
            { hex := "DEF456", alt_baro := some 0 } 1000).2
          { hex := "DEF456", alt_baro := some 100 } 1010).2
        { hex := "DEF456", alt_baro := some 400 } 1020).2
      { hex := "DEF456", alt_baro := some 1500 } 1040 (by decide)⟩

/-- Updating an association list in place preserves its key list. -/
theorem map_fst_update {β : Type} (l : List (String × β)) (h : String) (v : β) :
    ((l.map (fun p => if p.1 == h then (p.1, v) else p)).map Prod.fst) =
      l.map Prod.fst := by
  rw [List.map_map]
  apply List.map_congr_left
  intro p _
  by_cases hp : p.1 = h
  · simp [hp]
  · simp [hp]

/-- A key occurring in the key list has a binding. -/
theorem exists_binding_of_mem_keys {α β : Type} {l : List (α × β)} {a : α}
    (h : a ∈ l.map Prod.fst) : ∃ b, (a, b) ∈ l := by
  rcases List.mem_map.mp h with ⟨p, hp, hpa⟩
  exact ⟨p.2, by rw [← hpa]; exact hp⟩

/-- A key-preserving `filterMap` of an association list thins its key
list. -/
theorem filterMap_keys_sublist {β γ : Type} (l : List (String × β))
    (f : String × β → Option (String × γ))
    (hf : ∀ p q, f p = some q → q.1 = p.1) :
    ((l.filterMap f).map Prod.fst).Sublist (l.map Prod.fst) := by
  induction l with
  | nil => simp
  | cons p ps ih =>
    simp only [List.filterMap_cons]
    cases hfp : f p with
    | none =>
      simp only [List.map_cons]
      exact ih.cons _
    | some q =>
      simp only [List.map_cons]
      rw [hf p q hfp]
      exact ih.cons₂ _

namespace RadarDB

/-- The claim's summary bounds, strengthened with the bookkeeping that
makes them inductive: the summary keys are unique (it is the SQL
primary key), every stored contact's hex has a summary row, every
summary's hex has at least one stored contact, and each summary's
`[first_seen, last_seen]` interval satisfies `first_seen ≤ last_seen`
and contains every stored contact timestamp of its hex (so `first_seen`
is at most their minimum and `last_seen` at least their maximum). -/
def summaryInv (db : DB) : Prop :=
  ((db.aircraft_summary.map Prod.fst).Nodup) ∧
  (∀ c ∈ db.aircraft_contacts, ∃ p ∈ db.aircraft_summary, p.1 = c.hex) ∧
  (∀ p ∈ db.aircraft_summary,
    (∃ c ∈ db.aircraft_contacts, c.hex = p.1) ∧
    p.2.first_seen ≤ p.2.last_seen ∧
    ∀ c ∈ db.aircraft_contacts, c.hex = p.1 →
      p.2.first_seen ≤ c.timestamp ∧ c.timestamp ≤ p.2.last_seen)

end RadarDB

namespace RadarDB

/-- The in-place branch of `_update_aircraft_summary` preserves the
summary bounds: any update that keeps `first_seen` and moves `last_seen`
to the (monotone) current time covers the appended contact row. -/
theorem summaryInv_parts_update
    (summaries : List (String × AircraftSummary)) (contacts : List ContactRow)
    (row : ContactRow) (now : ℤ) (existing updated : AircraftSummary)
    (hnd : (summaries.map Prod.fst).Nodup)
    (hc2s : ∀ c ∈ contacts, ∃ p ∈ summaries, p.1 = c.hex)
    (hsum : ∀ p ∈ summaries, (∃ c ∈ contacts, c.hex = p.1) ∧
      p.2.first_seen ≤ p.2.last_seen ∧
      ∀ c ∈ contacts, c.hex = p.1 →
        p.2.first_seen ≤ c.timestamp ∧ c.timestamp ≤ p.2.last_seen)
    (hmono : ∀ c ∈ contacts, c.timestamp ≤ now)
    (hlook : summaries.lookup row.hex = some existing)
    (hts : row.timestamp = now)
    (hfs : updated.first_seen = existing.first_seen)
    (hls : updated.last_seen = now) :
    (((summaries.map (fun p => if p.1 == row.hex then (p.1, updated) else p)).map
        Prod.fst).Nodup) ∧
    (∀ c ∈ contacts ++ [row],
      ∃ p ∈ summaries.map (fun p => if p.1 == row.hex then (p.1, updated) else p),
        p.1 = c.hex) ∧
    (∀ p ∈ summaries.map (fun p => if p.1 == row.hex then (p.1, updated) else p),
      (∃ c ∈ contacts ++ [row], c.hex = p.1) ∧
      p.2.first_seen ≤ p.2.last_seen ∧
      ∀ c ∈ contacts ++ [row], c.hex = p.1 →
        p.2.first_seen ≤ c.timestamp ∧ c.timestamp ≤ p.2.last_seen) := by
  have hfst : ∀ p : String × AircraftSummary,
      ((if p.1 == row.hex then (p.1, updated) else p) : String × AircraftSummary).1
        = p.1 := by
    intro p
    by_cases hp : p.1 = row.hex
    · simp [hp]
    · simp [hp]
  -- the old contact bound on the looked-up summary gives first_seen ≤ now
  have hexmem : (row.hex, existing) ∈ summaries := mem_of_lookup_some hlook
  obtain ⟨⟨c0, hc0, hc0hex⟩, hfl0, hbnd0⟩ := hsum (row.hex, existing) hexmem
  have hfs_now : existing.first_seen ≤ now := by
    have h1 : existing.first_seen ≤ c0.timestamp := (hbnd0 c0 hc0 hc0hex).1
    have h2 := hmono c0 hc0
    omega
  refine ⟨?_, ?_, ?_⟩
  · rw [map_fst_update]
    exact hnd
  · intro c hc
    rcases List.mem_append.mp hc with hcl | hcr
    · obtain ⟨p, hp, hp1⟩ := hc2s c hcl
      exact ⟨_, List.mem_map_of_mem _ hp, by rw [hfst p]; exact hp1⟩
    · simp only [List.mem_singleton] at hcr
      subst hcr
      exact ⟨_, List.mem_map_of_mem _ hexmem, hfst _⟩
  · intro p' hp'
    rcases List.mem_map.mp hp' with ⟨p, hp, hfp⟩
    by_cases hpk : p.1 = row.hex
    · -- the updated binding
      have hpe : p.2 = existing := by
        have hl := lookup_eq_of_mem_nodup hnd (show (p.1, p.2) ∈ summaries from hp)
        rw [hpk, hlook] at hl
        exact (Option.some.injEq _ _).mp hl.symm
      rw [if_pos (by simpa using hpk)] at hfp
      subst hfp
      refine ⟨⟨row, List.mem_append.mpr (Or.inr (List.mem_singleton.mpr rfl)),
          by simpa using hpk.symm⟩, ?_, ?_⟩
      · simp only [hfs, hls]
        exact hfs_now
      · intro c hc hchex
        simp only [hfs, hls]
        rcases List.mem_append.mp hc with hcl | hcr
        · have hbp : p.2.first_seen ≤ c.timestamp ∧ c.timestamp ≤ p.2.last_seen :=
            (hsum p hp).2.2 c hcl (by simpa using hchex)
          rw [hpe] at hbp
          exact ⟨hbp.1, hmono c hcl⟩
        · simp only [List.mem_singleton] at hcr
          subst hcr
          rw [hts]
          exact ⟨hfs_now, le_refl now⟩
    · rw [if_neg (by simpa using hpk)] at hfp
      subst hfp
      obtain ⟨⟨c1, hc1, hc1hex⟩, hfl, hbnd⟩ := hsum p hp
      refine ⟨⟨c1, List.mem_append.mpr (Or.inl hc1), hc1hex⟩, hfl, ?_⟩
      intro c hc hchex
      rcases List.mem_append.mp hc with hcl | hcr
      · exact hbnd c hcl hchex
      · simp only [List.mem_singleton] at hcr
        subst hcr
        exact absurd hchex (by simpa using (Ne.symm hpk))

/-- The insert branch of `_update_aircraft_summary` preserves the
summary bounds: a hex with no summary row has no stored contacts, and
the fresh row's interval is exactly the new timestamp. -/
theorem summaryInv_parts_insert
    (summaries : List (String × AircraftSummary)) (contacts : List ContactRow)
    (row : ContactRow) (now : ℤ) (fresh : AircraftSummary)
    (hnd : (summaries.map Prod.fst).Nodup)
    (hc2s : ∀ c ∈ contacts, ∃ p ∈ summaries, p.1 = c.hex)
    (hsum : ∀ p ∈ summaries, (∃ c ∈ contacts, c.hex = p.1) ∧
      p.2.first_seen ≤ p.2.last_seen ∧
      ∀ c ∈ contacts, c.hex = p.1 →
        p.2.first_seen ≤ c.timestamp ∧ c.timestamp ≤ p.2.last_seen)
    (hlook : summaries.lookup row.hex = none)
    (hts : row.timestamp = now)
    (hfs : fresh.first_seen = now)
    (hls : fresh.last_seen = now) :
    (((summaries ++ [(row.hex, fresh)]).map Prod.fst).Nodup) ∧
    (∀ c ∈ contacts ++ [row],
      ∃ p ∈ summaries ++ [(row.hex, fresh)], p.1 = c.hex) ∧
    (∀ p ∈ summaries ++ [(row.hex, fresh)],
      (∃ c ∈ contacts ++ [row], c.hex = p.1) ∧
      p.2.first_seen ≤ p.2.last_seen ∧
      ∀ c ∈ contacts ++ [row], c.hex = p.1 →
        p.2.first_seen ≤ c.timestamp ∧ c.timestamp ≤ p.2.last_seen) := by
  have hnotkey : row.hex ∉ summaries.map Prod.fst := by
    intro hmem
    obtain ⟨b, hb⟩ := exists_binding_of_mem_keys hmem
    have := lookup_isSome_of_mem hb
    rw [hlook] at this
    simp at this
  have hnocontact : ∀ c ∈ contacts, c.hex ≠ row.hex := by
    intro c hc hceq
    obtain ⟨p, hp, hp1⟩ := hc2s c hc
    rw [hceq] at hp1
    exact hnotkey (hp1 ▸ List.mem_map_of_mem Prod.fst hp)
  refine ⟨?_, ?_, ?_⟩
  · rw [List.map_append]
    simp only [List.map_cons, List.map_nil]
    rw [List.nodup_append]
    refine ⟨hnd, List.nodup_singleton _, ?_⟩
    intro a ha hb
    simp only [List.mem_singleton] at hb
    subst hb
    exact hnotkey ha
  · intro c hc
    rcases List.mem_append.mp hc with hcl | hcr
    · obtain ⟨p, hp, hp1⟩ := hc2s c hcl
      exact ⟨p, List.mem_append.mpr (Or.inl hp), hp1⟩
    · simp only [List.mem_singleton] at hcr
      exact ⟨(row.hex, fresh),
        List.mem_append.mpr (Or.inr (List.mem_singleton.mpr rfl)), by rw [hcr]⟩
  · intro p hp
    rcases List.mem_append.mp hp with hpl | hpr
    · obtain ⟨⟨c1, hc1, hc1hex⟩, hfl, hbnd⟩ := hsum p hpl
      refine ⟨⟨c1, List.mem_append.mpr (Or.inl hc1), hc1hex⟩, hfl, ?_⟩
      intro c hc hchex
      rcases List.mem_append.mp hc with hcl | hcr
      · exact hbnd c hcl hchex
      · simp only [List.mem_singleton] at hcr
        subst hcr
        exfalso
        have hkey : p.1 ∈ summaries.map Prod.fst := List.mem_map_of_mem Prod.fst hpl
        rw [← hchex] at hkey
        exact hnotkey hkey
    · simp only [List.mem_singleton] at hpr
      subst hpr
      refine ⟨⟨row, List.mem_append.mpr (Or.inr (List.mem_singleton.mpr rfl)), rfl⟩,
        by rw [hfs, hls], ?_⟩
      intro c hc hchex
      rcases List.mem_append.mp hc with hcl | hcr
      · exact absurd hchex (hnocontact c hcl)
      · simp only [List.mem_singleton] at hcr
        subst hcr
        rw [hfs, hls, hts]
        exact ⟨le_refl now, le_refl now⟩

end RadarDB

namespace RadarDB

/-- `cleanup_old_data`'s summary pass preserves the summary bounds:
surviving summaries get `first_seen` recomputed to the exact minimum of
their surviving contacts, and summaries whose hex lost all contacts are
dropped. -/
theorem summaryInv_parts_cleanup
    (summaries : List (String × AircraftSummary))
    (contacts contacts' : List ContactRow)
    (hsub : ∀ c ∈ contacts', c ∈ contacts)
    (hnd : (summaries.map Prod.fst).Nodup)
    (hc2s : ∀ c ∈ contacts, ∃ p ∈ summaries, p.1 = c.hex)
    (hsum : ∀ p ∈ summaries, (∃ c ∈ contacts, c.hex = p.1) ∧
      p.2.first_seen ≤ p.2.last_seen ∧
      ∀ c ∈ contacts, c.hex = p.1 →
        p.2.first_seen ≤ c.timestamp ∧ c.timestamp ≤ p.2.last_seen) :
    (((summaries.filterMap (fun p =>
        match listMinInt ((contacts'.filter (fun c => c.hex == p.1)).map
            (fun c => c.timestamp)) with
        | some m => some (p.1, { p.2 with first_seen := m })
        | none => none)).map Prod.fst).Nodup) ∧
    (∀ c ∈ contacts',
      ∃ p ∈ summaries.filterMap (fun p =>
        match listMinInt ((contacts'.filter (fun c => c.hex == p.1)).map
            (fun c => c.timestamp)) with
        | some m => some (p.1, { p.2 with first_seen := m })
        | none => none), p.1 = c.hex) ∧
    (∀ p ∈ summaries.filterMap (fun p =>
        match listMinInt ((contacts'.filter (fun c => c.hex == p.1)).map
            (fun c => c.timestamp)) with
        | some m => some (p.1, { p.2 with first_seen := m })
        | none => none),
      (∃ c ∈ contacts', c.hex = p.1) ∧
      p.2.first_seen ≤ p.2.last_seen ∧
      ∀ c ∈ contacts', c.hex = p.1 →
        p.2.first_seen ≤ c.timestamp ∧ c.timestamp ≤ p.2.last_seen) := by
  refine ⟨?_, ?_, ?_⟩
  · refine (filterMap_keys_sublist _ _ ?_).nodup hnd
    intro p q hpq
    cases hm : listMinInt ((contacts'.filter (fun c => c.hex == p.1)).map
        (fun c => c.timestamp)) with
    | none =>
      simp only [hm] at hpq
      exact Option.noConfusion hpq
    | some m =>
      simp only [hm, Option.some.injEq] at hpq
      rw [← hpq]
  · intro c hc
    obtain ⟨p, hp, hp1⟩ := hc2s c (hsub c hc)
    have hcmem : c.timestamp ∈
        (contacts'.filter (fun c2 => c2.hex == p.1)).map (fun c2 => c2.timestamp) := by
      refine List.mem_map.mpr ⟨c, List.mem_filter.mpr ⟨hc, ?_⟩, rfl⟩
      simpa using hp1.symm
    have hne : ((contacts'.filter (fun c2 => c2.hex == p.1)).map
        (fun c2 => c2.timestamp)) ≠ [] := by
      intro h0
      rw [h0] at hcmem
      simp at hcmem
    obtain ⟨m, hm⟩ := Option.isSome_iff_exists.mp (listMinInt_isSome hne)
    refine ⟨(p.1, { p.2 with first_seen := m }),
      List.mem_filterMap.mpr ⟨p, hp, ?_⟩, hp1⟩
    simp only [hm]
  · intro p' hp'
    rcases List.mem_filterMap.mp hp' with ⟨p, hp, hgp⟩
    cases hm : listMinInt ((contacts'.filter (fun c => c.hex == p.1)).map
        (fun c => c.timestamp)) with
    | none =>
      simp only [hm] at hgp
      exact Option.noConfusion hgp
    | some m =>
      simp only [hm, Option.some.injEq] at hgp
      subst hgp
      have hmmem := listMinInt_mem hm
      rcases List.mem_map.mp hmmem with ⟨c1, hc1f, hc1t⟩
      have hc1 : c1 ∈ contacts' := (List.mem_filter.mp hc1f).1
      have hc1hex : c1.hex = p.1 := by
        have := (List.mem_filter.mp hc1f).2
        simpa using this
      obtain ⟨-, -, hbnd⟩ := hsum p hp
      refine ⟨⟨c1, hc1, hc1hex⟩, ?_, ?_⟩
      · have := (hbnd c1 (hsub c1 hc1) hc1hex).2
        simp only
        omega
      · intro c hc hchex
        have hmle : m ≤ c.timestamp := by
          refine listMinInt_le hm c.timestamp (List.mem_map.mpr
            ⟨c, List.mem_filter.mpr ⟨hc, by simpa using hchex⟩, rfl⟩)
        have hbc := (hbnd c (hsub c hc) (by simpa using hchex)).2
        exact ⟨hmle, hbc⟩

/-- `store_aircraft_contact` preserves the summary bounds under
monotone ingestion timestamps. -/
theorem store_preserves_summaryInv (db : DB) (data : AircraftData) (now : ℤ)
    (hinv : summaryInv db)
    (hmono : ∀ c ∈ db.aircraft_contacts, c.timestamp ≤ now) :
    summaryInv (store_aircraft_contact db data now).2 := by
  obtain ⟨hnd, hc2s, hsum⟩ := hinv
  by_cases hhex : data.hex = ""
  · simp only [store_aircraft_contact, if_pos hhex]
    exact ⟨hnd, hc2s, hsum⟩
  · rw [store_eq db data now hhex]
    unfold summaryInv update_aircraft_summary
    cases hlook : db.aircraft_summary.lookup data.hex with
    | some existing =>
      simp only [hlook]
      exact summaryInv_parts_update db.aircraft_summary db.aircraft_contacts
        (mkContactRow data now) now existing _ hnd hc2s hsum hmono hlook rfl rfl rfl
    | none =>
      simp only [hlook]
      exact summaryInv_parts_insert db.aircraft_summary db.aircraft_contacts
        (mkContactRow data now) now _ hnd hc2s hsum hlook rfl rfl rfl

/-- `cleanup_old_data` preserves the summary bounds. -/
theorem cleanup_preserves_summaryInv (db : DB) (days now : ℤ)
    (hinv : summaryInv db) :
    summaryInv (cleanup_old_data db days now).2 := by
  obtain ⟨hnd, hc2s, hsum⟩ := hinv
  unfold cleanup_old_data summaryInv
  exact summaryInv_parts_cleanup db.aircraft_summary db.aircraft_contacts
    (db.aircraft_contacts.filter
      (fun c => decide (now - days * 24 * 3600 ≤ c.timestamp)))
    (fun c hc => (List.mem_filter.mp hc).1) hnd hc2s hsum

end RadarDB

/-- C6.  For every hex with a summary row, `first_seen ≤ last_seen`,
`first_seen` is at most every stored contact timestamp of that hex and
`last_seen` at least every such timestamp (hence they bound the minimum
and maximum); the invariant holds of the fresh database and is
preserved by every `store_aircraft_contact` (under monotone ingestion
timestamps, as produced by `time.time()`) and by every
`cleanup_old_data`. -/
theorem C6_summary_bounds :
    RadarDB.summaryInv RadarDB.emptyDB ∧
    (∀ (db : RadarDB.DB) (data : RadarDB.AircraftData) (now : ℤ),
      RadarDB.summaryInv db →
      (∀ c ∈ db.aircraft_contacts, c.timestamp ≤ now) →
      RadarDB.summaryInv (RadarDB.store_aircraft_contact db data now).2) ∧
    (∀ (db : RadarDB.DB) (days now : ℤ),
      RadarDB.summaryInv db →
      RadarDB.summaryInv (RadarDB.cleanup_old_data db days now).2) :=
  ⟨by refine ⟨by simp [RadarDB.emptyDB], ?_, ?_⟩ <;> intro p hp <;>
      simp [RadarDB.emptyDB] at hp,
   fun db data now hinv hmono =>
     RadarDB.store_preserves_summaryInv db data now hinv hmono,
   fun db days now hinv =>
     RadarDB.cleanup_preserves_summaryInv db days now hinv⟩

/-- C6, witness for `C6_summary_bounds`: one store into the empty
database followed by a cleanup. -/
theorem C6_summary_bounds_witness :
    RadarDB.summaryInv RadarDB.emptyDB ∧
    (∀ c ∈ RadarDB.emptyDB.aircraft_contacts, c.timestamp ≤ (1000 : ℤ)) ∧
    RadarDB.summaryInv (RadarDB.store_aircraft_contact RadarDB.emptyDB
      { hex := "ABC123", alt_baro := some 100 } 1000).2 ∧
    RadarDB.summaryInv (RadarDB.cleanup_old_data
      (RadarDB.store_aircraft_contact RadarDB.emptyDB
        { hex := "ABC123", alt_baro := some 100 } 1000).2 30 2000).2 :=
  ⟨C6_summary_bounds.1, by decide,
    C6_summary_bounds.2.1 RadarDB.emptyDB
      { hex := "ABC123", alt_baro := some 100 } 1000 C6_summary_bounds.1 (by decide),
    C6_summary_bounds.2.2 _ 30 2000
      (C6_summary_bounds.2.1 RadarDB.emptyDB
        { hex := "ABC123", alt_baro := some 100 } 1000 C6_summary_bounds.1
        (by decide))⟩
